import Mathlib

/-!
Shallow embedding of the emission and checksum-oracle layer of OOP-YARPGen
(src/src/program.cpp) and proofs about its behaviour.

Output streams are modelled as lists of structured emission items (one item
per emitted statement or name), machine integers (unsigned long long) as Nat
with explicit reduction modulo 2 ^ 64, random draws of rand_val_gen as
explicit oracle functions, and fallible steps (the ERROR macro) as Except.
Dialect name prefixes (the SYCL app_ prefix) are not modelled: symbol names
are the plain stored names.
-/

namespace Yarpgen

/-- Width of unsigned long long int: hash arithmetic is performed mod 2 ^ 64. -/
def U64 : Nat := 2 ^ 64

/-- Modelled from the spec: the exclusive Kind tag of a Symbol (spec section 3,
Kind tag of scalars).  Constructor names follow the VarKindID identifiers that
program.cpp matches on; the defining header is not among the sources. -/
inductive VarKindID
  | NORMAL
  | PTR
  | STRUCT_MBR
  | CLASS_MBR
  | CLASS_PRIVATE_MBR
  | DYN_STRUCT_MBR
  | DYN_CLASS_MBR
deriving DecidableEq, Repr

/-- Modelled from the spec: the exclusive Kind tag of an array Symbol
(spec section 3).  Constructor names follow the ArrKindID identifiers used in
program.cpp; the defining header is not among the sources. -/
inductive ArrKindID
  | NORMAL
  | STRUCT_MBR
  | CLASS_MBR
  | DYN_STRUCT_MBR
  | DYN_CLASS_MBR
deriving DecidableEq, Repr

/-- Modelled from the spec: PointerKind of a Pointer-kind scalar
(spec section 3, Raw or Shared or Unique).  MAX_PTR_TYPE stands for the
remaining enum values that fall into the default branch of the switch in
emitPtrDecl; the defining header is not among the sources. -/
inductive PtrTypeID
  | RAW
  | SHARED
  | UNIQUE
  | MAX_PTR_TYPE
deriving DecidableEq, Repr

/-- Modelled from the spec: the checksum algorithm option
(spec section 3, Options).  UNSUPPORTED stands for CheckAlgo enum values
outside the three supported algorithms, which reach the defensive ERROR
branch of emitCheck; the defining header is not among the sources. -/
inductive CheckAlgo
  | ASSERTS
  | HASH
  | PRECOMPUTE
  | UNSUPPORTED
deriving DecidableEq, Repr

/-- Modelled from the spec: a three-valued option level (spec section 3,
parameter-passing policy None, Some, All); also used for the alignment
attribute policy.  The defining header is not among the sources. -/
inductive OptionLevel
  | NONE
  | SOME
  | ALL
deriving DecidableEq, Repr

/-- Modelled from the spec: the alignment-size enum matched in
emitArrayExtDecl; MAX_ALIGNMENT_SIZE is the unsupported value that triggers
the Bad alignment size ERROR.  The defining header is not among the sources. -/
inductive AlignmentSize
  | A16
  | A32
  | A64
  | MAX_ALIGNMENT_SIZE
deriving DecidableEq, Repr

/-- Modelled from the spec: a scalar Symbol (spec section 3: type, current
value, initial value, dead flag, Kind).  Field names follow the accessors
program.cpp calls on ScalarVar; IRValue payloads are collapsed to their
64-bit AbsValue as a Nat. -/
structure ScalarVar where
  name : String
  nameWithoutPrefix : String
  typeName : String
  varKind : VarKindID
  ptrType : PtrTypeID
  isDead : Bool
  initValue : Nat
  currentValue : Nat
  isFunc : Bool
  originName : String
deriving DecidableEq, Repr

/-- Modelled from the spec: an array Symbol (spec section 3).  Field names
follow the accessors program.cpp calls on Array; getInitValues and
getCurrentValues take a use-main-values flag, so both streams are stored;
the int multi-value axis with its -1 sentinel is an Option. -/
structure Array where
  name : String
  nameWithoutPrefix : String
  baseTypeName : String
  dims : List Nat
  arrKind : ArrKindID
  isDead : Bool
  alignment : Nat
  mulValsAxisIdx : Option Nat
  initValsMain : Nat
  initValsAlt : Nat
  curValsMain : Nat
  curValsAlt : Nat
deriving DecidableEq, Repr

/-- Array.getInitValues(use_main_vals): selects between the main and the
alternate initial-value stream. -/
def Array.getInitValues (a : Array) (use_main_vals : Bool) : Nat :=
  if use_main_vals then a.initValsMain else a.initValsAlt

/-- Array.getCurrentValues(use_main_vals): selects between the main and the
alternate current-value stream. -/
def Array.getCurrentValues (a : Array) (use_main_vals : Bool) : Nat :=
  if use_main_vals then a.curValsMain else a.curValsAlt

/-- Modelled from the spec: the read-only Options object (spec section 3)
plus the run environment.  vals_number and main_val_idx are the static
Options constants used by the multi-value-axis ternaries; outFileOpenable
records whether opening the output destination succeeds in
ProgramGenerator.emit. -/
structure Opts where
  checkAlgo : CheckAlgo
  allowDeadData : Bool
  inpAsArgs : OptionLevel
  emitAlignAttr : OptionLevel
  uniqueAlignSize : Bool
  alignSize : AlignmentSize
  isCXX : Bool
  valsNumber : Nat
  mainValIdx : Nat
  outFileOpenable : Bool
deriving DecidableEq, Repr

/-- The random draws of rand_val_gen, made explicit: one deterministic oracle
per distribution consulted by program.cpp (pass_as_param_distr for scalars and
arrays, emit_align_attr_distr, align_size_distr per array and the narrowing
draw in ProgramGenerator.emit). -/
structure Oracles where
  passVar : ScalarVar → Bool
  passArr : Array → Bool
  emitAlignAttrO : Array → Bool
  alignSizeO : Array → AlignmentSize
  narrowAlign : AlignmentSize

/-- ProgramGenerator.hash (program.cpp 1097 to 1101): the generation-time
checksum accumulator update
hash_seed ^= v + 0x9e3779b9 + (hash_seed << 6) + (hash_seed >> 2),
with unsigned long long arithmetic, i.e. sums reduced mod 2 ^ 64. -/
def ProgramGenerator.hash (hash_seed v : Nat) : Nat :=
  Nat.xor hash_seed ((v + 0x9e3779b9 + hash_seed * 2 ^ 6 + hash_seed / 2 ^ 2) % U64)

/-- The runtime mixing routine whose text emitCheckFunc writes into the test
program (program.cpp 137 to 141):
*seed ^= v + 0x9e3779b9 + ((*seed)<<6) + ((*seed)>>2)
on unsigned long long, transcribed with the same modular arithmetic. -/
def runtimeHash (seed v : Nat) : Nat :=
  Nat.xor seed ((v + 0x9e3779b9 + seed * 2 ^ 6 + seed / 2 ^ 2) % U64)

/-- ProgramGenerator.hashArrayStep (program.cpp 1117 to 1142).  The C++
recursion adds one level per axis; fuel is that recursion depth (hashArray
passes dims.length, which bounds it, so fuel exhaustion is unreachable).
Reading dims[cur_idx] or steps[cur_idx] out of bounds is undefined behaviour
of std::vector operator[] and is modelled as failure (none); cur_val_size is
the local constant 0 of the source (marked broken there), and the seed is
threaded instead of the mutable hash_seed member. -/
def ProgramGenerator.hashArrayStep (fuel : Nat) (dims : List Nat)
    (idx_len cur_idx : Nat) (has_to_use_init_val : Bool)
    (init_val cur_val : Nat) (steps : List Nat) (hash_seed : Nat) :
    Option Nat :=
  match fuel with
  | 0 => none
  | fuel' + 1 =>
    let vec_last_idx := idx_len - 1
    let cur_val_size : Nat := 0
    match dims[cur_idx]? with
    | none => none
    | some cur_dim =>
      match steps[cur_idx]? with
      | none => none
      | some cur_step =>
        let body := fun (acc : Option (Bool × Nat)) (i : Nat) =>
          match acc with
          | none => none
          | some (flag, seed) =>
            let flag := flag || decide (cur_val_size ≤ i)
            if cur_idx ≠ vec_last_idx then
              match ProgramGenerator.hashArrayStep fuel' dims idx_len
                  (cur_idx + 1) (flag || decide (i % cur_step ≠ 0))
                  init_val cur_val steps seed with
              | none => none
              | some seed' => some (flag, seed')
            else
              some (flag, ProgramGenerator.hash seed
                (if flag || decide (i % cur_step ≠ 0) then init_val else cur_val))
        match (List.range cur_dim).foldl body
            (some (has_to_use_init_val, hash_seed)) with
        | none => none
        | some r => some r.2

/-- ProgramGenerator.hashArray (program.cpp 1103 to 1115): sets up the
generation-time walk over one output array and calls hashArrayStep with an
EMPTY steps vector (the source marks this line as broken).  The size_t
constant Options::main_val_idx is converted to bool as in C++ (nonzero is
true) when it is passed to getInitValues and getCurrentValues. -/
def ProgramGenerator.hashArray (opts : Opts) (arr : Array) (hash_seed : Nat) :
    Option Nat :=
  let dims := arr.dims
  let idx_vec : List Nat := List.replicate dims.length 0
  let init_val := arr.getInitValues (decide (opts.mainValIdx ≠ 0))
  let cur_val := arr.getCurrentValues (decide (opts.mainValIdx ≠ 0))
  let steps : List Nat := []
  ProgramGenerator.hashArrayStep dims.length dims idx_vec.length 0 false
    init_val cur_val steps hash_seed

/-- Claim C1: for Precompute mode, the generation-time checksum accumulator
(ProgramGenerator.hash over hash_seed, starting at 0) computes exactly the
same mixing function as the emitted runtime hash routine, so for every
sequence of 64-bit values the embedded literal equals the runtime trace; in
particular, for a single output scalar with final value 5 the embedded
literal is 0x9e3779be. -/
theorem claim_C1 :
    (∀ seed v : Nat, ProgramGenerator.hash seed v = runtimeHash seed v)
    ∧ (∀ vs : List Nat,
        vs.foldl ProgramGenerator.hash 0 = vs.foldl runtimeHash 0)
    ∧ [(5 : Nat)].foldl ProgramGenerator.hash 0 = 0x9e3779be := by
  refine ⟨fun _ _ => rfl, fun vs => rfl, ?_⟩
  decide

/-- Claim C2, evaluation of the code at the failing input: for EVERY array
with at least one dimension the generation-time checksum walk fails, because
hashArray passes an empty per-axis stride table and hashArrayStep immediately
indexes steps[0] out of bounds. -/
theorem claim_C2 (opts : Opts) (arr : Array) (seed : Nat)
    (h : arr.dims ≠ []) :
    ProgramGenerator.hashArray opts arr seed = none := by
  unfold ProgramGenerator.hashArray
  cases harr : arr.dims with
  | nil => exact absurd harr h
  | cons d ds =>
    unfold ProgramGenerator.hashArrayStep
    simp [harr]

/-- A set of option values used for concrete evaluations. -/
def optsEx : Opts :=
  { checkAlgo := CheckAlgo.HASH
    allowDeadData := false
    inpAsArgs := OptionLevel.NONE
    emitAlignAttr := OptionLevel.NONE
    uniqueAlignSize := false
    alignSize := AlignmentSize.A16
    isCXX := false
    valsNumber := 3
    mainValIdx := 0
    outFileOpenable := true }

/-- A concrete one-dimensional live output array. -/
def arrEx1 : Array :=
  { name := "arr_5"
    nameWithoutPrefix := "arr_5"
    baseTypeName := "int"
    dims := [1]
    arrKind := ArrKindID.NORMAL
    isDead := false
    alignment := 0
    mulValsAxisIdx := none
    initValsMain := 1
    initValsAlt := 2
    curValsMain := 3
    curValsAlt := 4 }

/-- Witness for claim C2: the walk fails on the concrete array arrEx1. -/
theorem claim_C2_witness :
    arrEx1.dims ≠ [] ∧ ProgramGenerator.hashArray optsEx arrEx1 0 = none :=
  ⟨by decide, claim_C2 optsEx arrEx1 0 (by decide)⟩

/-- The five aggregate scalar-member buffers filled as a side effect of
emitVarsDecl (program.cpp 144 to 149). -/
structure VarBufs where
  structMbr : List ScalarVar
  classMbr : List ScalarVar
  classPrivMbr : List ScalarVar
  dynStructMbr : List ScalarVar
  dynClassMbr : List ScalarVar
deriving DecidableEq, Repr

/-- Empty scalar-member buffers (the state before an emission run). -/
def VarBufs.empty : VarBufs := ⟨[], [], [], [], []⟩

/-- The per-variable buffer pushes of emitVarsDecl (program.cpp 159 to 168):
the variable is appended to the buffer matching its kind, in front of the
entries contributed by the remainder of the table. -/
def consVarBufs (v : ScalarVar) (b : VarBufs) : VarBufs :=
  { structMbr :=
      if v.varKind = VarKindID.STRUCT_MBR then v :: b.structMbr else b.structMbr
    classMbr :=
      if v.varKind = VarKindID.CLASS_MBR then v :: b.classMbr else b.classMbr
    classPrivMbr :=
      if v.varKind = VarKindID.CLASS_PRIVATE_MBR then v :: b.classPrivMbr
      else b.classPrivMbr
    dynStructMbr :=
      if v.varKind = VarKindID.DYN_STRUCT_MBR then v :: b.dynStructMbr
      else b.dynStructMbr
    dynClassMbr :=
      if v.varKind = VarKindID.DYN_CLASS_MBR then v :: b.dynClassMbr
      else b.dynClassMbr }

/-- emitVarsDecl (program.cpp 151 to 203): one pass over a scalar table that
skips dead symbols when dead data is not allowed, classifies aggregate
members into the buffers, and emits a standalone declaration for each
NORMAL-kind variable.  The DeclMod switch only chooses a modifier keyword in
the declaration text and therefore does not appear in the item model.
Returns (declared variables, buffer contents contributed by this call). -/
def emitVarsDecl (opts : Opts) : List ScalarVar → List ScalarVar × VarBufs
  | [] => ([], VarBufs.empty)
  | v :: rest =>
    let r := emitVarsDecl opts rest
    if !opts.allowDeadData && v.isDead then r
    else
      let bufs := consVarBufs v r.2
      if v.varKind = VarKindID.NORMAL then (v :: r.1, bufs) else (r.1, bufs)

/-- The four aggregate array-member buffers filled as a side effect of
emitArrayDecl (program.cpp 205 to 209). -/
structure ArrBufs where
  structMbr : List Array
  classMbr : List Array
  dynStructMbr : List Array
  dynClassMbr : List Array
deriving DecidableEq, Repr

/-- Empty array-member buffers. -/
def ArrBufs.empty : ArrBufs := ⟨[], [], [], []⟩

/-- The per-array buffer pushes of emitArrayDecl (program.cpp 217 to 224). -/
def consArrBufs (a : Array) (b : ArrBufs) : ArrBufs :=
  { structMbr :=
      if a.arrKind = ArrKindID.STRUCT_MBR then a :: b.structMbr else b.structMbr
    classMbr :=
      if a.arrKind = ArrKindID.CLASS_MBR then a :: b.classMbr else b.classMbr
    dynStructMbr :=
      if a.arrKind = ArrKindID.DYN_STRUCT_MBR then a :: b.dynStructMbr
      else b.dynStructMbr
    dynClassMbr :=
      if a.arrKind = ArrKindID.DYN_CLASS_MBR then a :: b.dynClassMbr
      else b.dynClassMbr }

/-- emitArrayDecl (program.cpp 211 to 240): skips dead arrays when dead data
is not allowed, classifies aggregate members into the array buffers, and
emits a standalone declaration for each NORMAL-kind array.  Returns
(declared arrays, buffer contents contributed by this call). -/
def emitArrayDecl (opts : Opts) : List Array → List Array × ArrBufs
  | [] => ([], ArrBufs.empty)
  | a :: rest =>
    let r := emitArrayDecl opts rest
    if !opts.allowDeadData && a.isDead then r
    else
      let bufs := consArrBufs a r.2
      if a.arrKind = ArrKindID.NORMAL then (a :: r.1, bufs) else (r.1, bufs)

/-- A pointer allocation statement rendered by emitPtrDecl. -/
inductive PtrStmt
  | newStmt (v : ScalarVar)
  | makeSharedStmt (v : ScalarVar)
  | uniqueNewStmt (v : ScalarVar)
deriving DecidableEq, Repr

/-- emitPtrDecl (program.cpp 245 to 278): renders an allocation per
PTR-kind variable and registers RAW pointers in the need-delete buffer; note
that there is no dead-data filter here.  Returns (allocation statements,
need_delete_param_buffer contributions in registration order). -/
def emitPtrDecl : List ScalarVar → List PtrStmt × List ScalarVar
  | [] => ([], [])
  | v :: rest =>
    let r := emitPtrDecl rest
    if v.varKind = VarKindID.PTR then
      match v.ptrType with
      | PtrTypeID.RAW => (PtrStmt.newStmt v :: r.1, v :: r.2)
      | PtrTypeID.SHARED => (PtrStmt.makeSharedStmt v :: r.1, r.2)
      | PtrTypeID.UNIQUE => (PtrStmt.uniqueNewStmt v :: r.1, r.2)
      | PtrTypeID.MAX_PTR_TYPE => r
    else r

/-- emitDeleteStmt together with ProgramGenerator.emitRelease
(program.cpp 1002 to 1018): one delete statement per registered variable, in
registration order, followed by the deletes of struct_2 and object_2.
Returns the list of deleted names. -/
def emitRelease (need_delete_param_buffer : List ScalarVar) : List String :=
  need_delete_param_buffer.map (fun v => v.nameWithoutPrefix)
    ++ ["struct_2", "object_2"]

/-- The filter that characterises registration into the need-delete buffer:
PTR-kind variables of RAW pointer type. -/
def isRawPtrB (v : ScalarVar) : Bool :=
  v.varKind = VarKindID.PTR && v.ptrType = PtrTypeID.RAW

/-- The need-delete registrations of emitPtrDecl are exactly the RAW-kind
pointer variables, in table order. -/
theorem emitPtrDecl_reg (vars : List ScalarVar) :
    (emitPtrDecl vars).2 = vars.filter isRawPtrB := by
  induction vars with
  | nil => rfl
  | cons v rest ih =>
    by_cases hk : v.varKind = VarKindID.PTR
    · cases hp : v.ptrType <;>
        simp [emitPtrDecl, List.filter, isRawPtrB, hk, hp, ih]
    · simp [emitPtrDecl, List.filter, isRawPtrB, hk, ih]

/-- Claim C8: the emitted Release routine contains exactly one delete per
RAW-kind pointer registered during pointer declaration rendering (input table
then output table), in registration order, followed by one release each for
struct_2 and object_2; Shared- and Unique-kind pointers are never
registered. -/
theorem claim_C8 (inpVars outVars : List ScalarVar) :
    emitRelease ((emitPtrDecl inpVars).2 ++ (emitPtrDecl outVars).2)
      = ((inpVars ++ outVars).filter isRawPtrB).map
          (fun v => v.nameWithoutPrefix) ++ ["struct_2", "object_2"]
    ∧ (((emitPtrDecl inpVars).2 ++ (emitPtrDecl outVars).2).all
        (fun v => v.ptrType = PtrTypeID.RAW)) = true := by
  constructor
  · simp [emitRelease, emitPtrDecl_reg, List.filter_append]
  · simp only [emitPtrDecl_reg, List.all_append, Bool.and_eq_true, List.all_eq_true]
    constructor <;>
      · intro v hv
        have := List.of_mem_filter hv
        simp [isRawPtrB] at this
        simp [this.2]

/-- The errors raised through the ERROR macro in program.cpp: the defensive
Unsupported branch of emitCheck, the Bad alignment size branch of
emitArrayExtDecl, and the failure to open the output destination in
ProgramGenerator.emit. -/
inductive EmitErr
  | unsupported
  | badAlignmentSize
  | cantOpenFile
deriving DecidableEq, Repr

/-- The body of the innermost statement of an array walk in the emitted
checksum routine: a hash call on the current element, or (for Asserts) the
or-reduced inequality comparison of the element against a list of literal
values. -/
inductive ArrCheckBody
  | hashElem
  | cmpElem (lits : List Nat)
deriving DecidableEq, Repr

/-- One statement of the emitted checksum routine. -/
inductive CheckStmt
  | hashCall (name : String)
  | cmpScalar (name : String) (lit : Nat)
  | arrLoop (name : String) (dims : List Nat) (body : ArrCheckBody)
deriving DecidableEq, Repr

/-- Runtime semantics of an Asserts element comparison
(value_mismatch |= elem != l1 && elem != l2 && ...): the mismatch flag is
raised exactly when the element differs from every compared literal. -/
def cmpMismatch (body : ArrCheckBody) (elem : Nat) : Bool :=
  match body with
  | ArrCheckBody.hashElem => false
  | ArrCheckBody.cmpElem lits => lits.all (fun l => elem ≠ l)

/-- The scalar loop of ProgramGenerator.emitCheck (program.cpp 628 to 650):
walks the output variable table, STOPS at the first DYN_CLASS_MBR entry
(break), emits one hash call per variable for Hash and Precompute, one
comparison per variable for Asserts, and raises the Unsupported error
otherwise.  There is no dead-data filter in this loop.  The Precompute
generation-time side effect on hash_seed is the separately modelled
ProgramGenerator.hash. -/
def emitCheckVars (opts : Opts) : List ScalarVar → Except EmitErr (List CheckStmt)
  | [] => Except.ok []
  | v :: rest =>
    if v.varKind = VarKindID.DYN_CLASS_MBR then Except.ok []
    else
      match opts.checkAlgo with
      | CheckAlgo.HASH =>
        (emitCheckVars opts rest).map (fun tl => CheckStmt.hashCall v.name :: tl)
      | CheckAlgo.PRECOMPUTE =>
        (emitCheckVars opts rest).map (fun tl => CheckStmt.hashCall v.name :: tl)
      | CheckAlgo.ASSERTS =>
        (emitCheckVars opts rest).map
          (fun tl => CheckStmt.cmpScalar v.name v.currentValue :: tl)
      | CheckAlgo.UNSUPPORTED => Except.error EmitErr.unsupported

/-- The literal values compared by the Asserts branch of the array loop of
emitCheck (program.cpp 688 to 703): current and initial main-stream values,
then, when the array has a multi-value axis, current and initial
alternate-stream values.  The comparison is written once inside the loop
nest and contains no loop index, so it is the same at every element. -/
def assertsCmpLits (a : Array) : List Nat :=
  [a.getCurrentValues true, a.getInitValues true]
    ++ (match a.mulValsAxisIdx with
        | some _ => [a.getCurrentValues false, a.getInitValues false]
        | none => [])

/-- The array loop of ProgramGenerator.emitCheck (program.cpp 654 to 707):
skips DYN_CLASS_MBR arrays (continue), emits one loop nest over every
dimension per remaining array with a hash call on the element for Hash and
Precompute or the literal comparison for Asserts, and raises the Unsupported
error otherwise.  There is no dead-data filter in this loop either. -/
def emitCheckArrays (opts : Opts) : List Array → Except EmitErr (List CheckStmt)
  | [] => Except.ok []
  | a :: rest =>
    if a.arrKind = ArrKindID.DYN_CLASS_MBR then emitCheckArrays opts rest
    else
      match opts.checkAlgo with
      | CheckAlgo.HASH =>
        (emitCheckArrays opts rest).map
          (fun tl => CheckStmt.arrLoop a.name a.dims ArrCheckBody.hashElem :: tl)
      | CheckAlgo.PRECOMPUTE =>
        (emitCheckArrays opts rest).map
          (fun tl => CheckStmt.arrLoop a.name a.dims ArrCheckBody.hashElem :: tl)
      | CheckAlgo.ASSERTS =>
        (emitCheckArrays opts rest).map
          (fun tl =>
            CheckStmt.arrLoop a.name a.dims (ArrCheckBody.cmpElem (assertsCmpLits a)) :: tl)
      | CheckAlgo.UNSUPPORTED => Except.error EmitErr.unsupported

/-- ProgramGenerator.emitCheck (program.cpp 617 to 709): the scalar loop over
the output variable table followed by the array loop over the output array
table. -/
def emitCheck (opts : Opts) (outVars : List ScalarVar) (outArrays : List Array) :
    Except EmitErr (List CheckStmt) :=
  match emitCheckVars opts outVars with
  | Except.error e => Except.error e
  | Except.ok vs =>
    match emitCheckArrays opts outArrays with
    | Except.error e => Except.error e
    | Except.ok as_ => Except.ok (vs ++ as_)

/-- Row-major enumeration of the index tuples of a loop nest with the given
dimension list: the first dimension is the outermost loop. -/
def rowMajorIdx : List Nat → List (List Nat)
  | [] => [[]]
  | d :: rest => (List.range d).flatMap (fun i => (rowMajorIdx rest).map (fun t => i :: t))

/-- The runtime trace of mix (hash) calls performed by an emitted checksum
routine: one entry per executed hash call, as (symbol name, index tuple);
scalars carry the empty tuple, an array loop nest contributes one entry per
element in row-major order. -/
def checkHashTrace (stmts : List CheckStmt) : List (String × List Nat) :=
  stmts.flatMap (fun s =>
    match s with
    | CheckStmt.hashCall n => [(n, [])]
    | CheckStmt.cmpScalar _ _ => []
    | CheckStmt.arrLoop n dims ArrCheckBody.hashElem =>
      (rowMajorIdx dims).map (fun ix => (n, ix))
    | CheckStmt.arrLoop _ _ (ArrCheckBody.cmpElem _) => [])

/-- For the two hashing algorithms the scalar loop succeeds and emits one
hash call per variable up to (excluding) the first DYN_CLASS_MBR entry. -/
theorem emitCheckVars_hash_eq (opts : Opts)
    (halgo : opts.checkAlgo = CheckAlgo.HASH ∨ opts.checkAlgo = CheckAlgo.PRECOMPUTE)
    (vars : List ScalarVar) :
    emitCheckVars opts vars
      = Except.ok ((vars.takeWhile
            (fun v => !(v.varKind = VarKindID.DYN_CLASS_MBR))).map
          (fun v => CheckStmt.hashCall v.name)) := by
  induction vars with
  | nil => rfl
  | cons v rest ih =>
    by_cases hk : v.varKind = VarKindID.DYN_CLASS_MBR
    · simp [emitCheckVars, hk, List.takeWhile]
    · rcases halgo with h | h <;>
        simp [emitCheckVars, hk, h, List.takeWhile, ih, Except.map]

/-- For the two hashing algorithms the array loop succeeds and emits one
hash loop nest per array whose kind is not DYN_CLASS_MBR. -/
theorem emitCheckArrays_hash_eq (opts : Opts)
    (halgo : opts.checkAlgo = CheckAlgo.HASH ∨ opts.checkAlgo = CheckAlgo.PRECOMPUTE)
    (arrays : List Array) :
    emitCheckArrays opts arrays
      = Except.ok ((arrays.filter
            (fun a => !(a.arrKind = ArrKindID.DYN_CLASS_MBR))).map
          (fun a => CheckStmt.arrLoop a.name a.dims ArrCheckBody.hashElem)) := by
  induction arrays with
  | nil => rfl
  | cons a rest ih =>
    by_cases hk : a.arrKind = ArrKindID.DYN_CLASS_MBR
    · simp [emitCheckArrays, hk, List.filter, ih]
    · rcases halgo with h | h <;>
        simp [emitCheckArrays, hk, h, List.filter, ih, Except.map]

/-- The trace of a list of pure hash statements is the concatenation of the
per-statement traces. -/
theorem checkHashTrace_append (xs ys : List CheckStmt) :
    checkHashTrace (xs ++ ys) = checkHashTrace xs ++ checkHashTrace ys := by
  simp [checkHashTrace]

/-- The trace of a run of scalar hash calls: one mix per scalar. -/
theorem checkHashTrace_scalars (vs : List ScalarVar) :
    checkHashTrace (vs.map (fun v => CheckStmt.hashCall v.name))
      = vs.map (fun v => (v.name, ([] : List Nat))) := by
  induction vs with
  | nil => rfl
  | cons v rest ih => simp only [List.map_cons, checkHashTrace, List.flatMap_cons] at ih ⊢; simp [ih]

/-- The trace of a run of array hash loop nests: one mix per element in
row-major order. -/
theorem checkHashTrace_arrLoops (as_ : List Array) :
    checkHashTrace (as_.map (fun a => CheckStmt.arrLoop a.name a.dims ArrCheckBody.hashElem))
      = as_.flatMap (fun a => (rowMajorIdx a.dims).map (fun ix => (a.name, ix))) := by
  induction as_ with
  | nil => rfl
  | cons a rest ih => simp only [List.map_cons, checkHashTrace, List.flatMap_cons] at ih ⊢; simp [ih]

/-- Claim C3, corrected form: for both hashing algorithms the emitted
checksum routine performs one mix call per output scalar (dead or alive)
PRECEDING the first DynamicClassMember table entry, in table order, followed
by one mix call per element of every output array (dead or alive) whose kind
is not DynamicClassMember, in row-major order. -/
theorem claim_C3 (opts : Opts) (outVars : List ScalarVar) (outArrays : List Array) :
    (emitCheck { opts with checkAlgo := CheckAlgo.HASH } outVars outArrays).map
        checkHashTrace
      = Except.ok
          ((outVars.takeWhile
              (fun v => !(v.varKind = VarKindID.DYN_CLASS_MBR))).map
            (fun v => (v.name, ([] : List Nat)))
          ++ (outArrays.filter
              (fun a => !(a.arrKind = ArrKindID.DYN_CLASS_MBR))).flatMap
            (fun a => (rowMajorIdx a.dims).map (fun ix => (a.name, ix))))
    ∧ (emitCheck { opts with checkAlgo := CheckAlgo.PRECOMPUTE } outVars outArrays).map
        checkHashTrace
      = Except.ok
          ((outVars.takeWhile
              (fun v => !(v.varKind = VarKindID.DYN_CLASS_MBR))).map
            (fun v => (v.name, ([] : List Nat)))
          ++ (outArrays.filter
              (fun a => !(a.arrKind = ArrKindID.DYN_CLASS_MBR))).flatMap
            (fun a => (rowMajorIdx a.dims).map (fun ix => (a.name, ix)))) := by
  constructor <;>
  · rw [emitCheck, emitCheckVars_hash_eq _ (by simp), emitCheckArrays_hash_eq _ (by simp)]
    simp only [Except.map, checkHashTrace_append]
    rw [checkHashTrace_scalars, checkHashTrace_arrLoops]

/-- The survive-the-dead-data-filter condition shared by the emission loops
(program.cpp, `if (!options.getAllowDeadData() && ...getIsDead()) continue`):
a symbol is kept iff dead data is allowed or it is not dead. -/
def keptB (opts : Opts) (dead : Bool) : Bool :=
  !(!opts.allowDeadData && dead)

/-- The pass-as-parameter decision for a scalar in emitVarExtDecl
(program.cpp 726 to 733): only input-category symbols can be chosen; under
SOME the rand_val_gen draw decides (oracle), under ALL the answer is always
yes, under NONE the flag keeps its initial false. -/
def passDecisionVar (opts : Opts) (oracles : Oracles) (inp_category : Bool)
    (v : ScalarVar) : Bool :=
  if inp_category then
    match opts.inpAsArgs with
    | OptionLevel.NONE => false
    | OptionLevel.SOME => oracles.passVar v
    | OptionLevel.ALL => true
  else false

/-- The pass-as-parameter decision for an array in emitArrayExtDecl
(program.cpp 756 to 763), identical in structure to the scalar decision. -/
def passDecisionArr (opts : Opts) (oracles : Oracles) (inp_category : Bool)
    (a : Array) : Bool :=
  if inp_category then
    match opts.inpAsArgs with
    | OptionLevel.NONE => false
    | OptionLevel.SOME => oracles.passArr a
    | OptionLevel.ALL => true
  else false

/-- emitVarExtDecl (program.cpp 716 to 746): for each live scalar either
records its name in the pass-as-param buffer or emits an extern declaration.
Returns (extern-declared variables, buffer contributions in table order). -/
def emitVarExtDecl (opts : Opts) (oracles : Oracles) (inp_category : Bool) :
    List ScalarVar → List ScalarVar × List String
  | [] => ([], [])
  | v :: rest =>
    let r := emitVarExtDecl opts oracles inp_category rest
    if !opts.allowDeadData && v.isDead then r
    else if passDecisionVar opts oracles inp_category v then (r.1, v.name :: r.2)
    else (v :: r.1, r.2)

/-- The condition under which the alignment-attribute block of
emitArrayExtDecl (program.cpp 782 to 810) reaches the unsupported
MAX_ALIGNMENT_SIZE case and raises the Bad alignment size ERROR: C++ output,
attribute emission enabled (always for ALL, by oracle draw for SOME), and an
effective alignment size (the unique option value, or a fresh draw) equal to
MAX_ALIGNMENT_SIZE. -/
def alignErrB (opts : Opts) (oracles : Oracles) (a : Array) : Bool :=
  opts.isCXX && !(opts.emitAlignAttr = OptionLevel.NONE)
    && (if opts.emitAlignAttr = OptionLevel.SOME then oracles.emitAlignAttrO a
        else true)
    && ((if opts.uniqueAlignSize then opts.alignSize else oracles.alignSizeO a)
          = AlignmentSize.MAX_ALIGNMENT_SIZE)

/-- emitArrayExtDecl (program.cpp 748 to 814): for each live array either
records its name in the pass-as-param buffer or emits an extern declaration,
whose alignment-attribute block can abort with Bad alignment size.  The
setAlignment side effect only stores the chosen non-zero alignment on the
symbol and is not needed by any property below, so it is not threaded.
Returns (extern-declared arrays, buffer contributions in table order). -/
def emitArrayExtDecl (opts : Opts) (oracles : Oracles) (inp_category : Bool) :
    List Array → Except EmitErr (List Array × List String)
  | [] => Except.ok ([], [])
  | a :: rest =>
    if !opts.allowDeadData && a.isDead then
      emitArrayExtDecl opts oracles inp_category rest
    else if passDecisionArr opts oracles inp_category a then
      (emitArrayExtDecl opts oracles inp_category rest).map
        (fun r => (r.1, a.name :: r.2))
    else if alignErrB opts oracles a then Except.error EmitErr.badAlignmentSize
    else
      (emitArrayExtDecl opts oracles inp_category rest).map
        (fun r => (a :: r.1, r.2))

/-- The aggregate-member scalar kinds skipped by the parameter emitters
(program.cpp 844 to 847 and 894 to 897). -/
def isAggMbrVarKindB (k : VarKindID) : Bool :=
  k = VarKindID.STRUCT_MBR || k = VarKindID.CLASS_MBR
    || k = VarKindID.CLASS_PRIVATE_MBR || k = VarKindID.DYN_STRUCT_MBR
    || k = VarKindID.DYN_CLASS_MBR

/-- The aggregate-member array kinds skipped by emitArrayFuncParam
(program.cpp 938 to 941). -/
def isAggMbrArrKindB (k : ArrKindID) : Bool :=
  k = ArrKindID.STRUCT_MBR || k = ArrKindID.CLASS_MBR
    || k = ArrKindID.DYN_STRUCT_MBR || k = ArrKindID.DYN_CLASS_MBR

/-- The scalar parameters selected by emitVarFuncParam for the test signature
(program.cpp 830 to 878): live scalars whose name is in the pass-as-param
buffer and whose kind is not an aggregate member.  The unconditional trailing
aggregate parameters and the rendered text are modelled separately
(emitVarFuncParamStr, emitTestParamNames). -/
def emitVarFuncParam (opts : Opts) (pass_as_param_buffer : List String) :
    List ScalarVar → List ScalarVar
  | [] => []
  | v :: rest =>
    let r := emitVarFuncParam opts pass_as_param_buffer rest
    if !opts.allowDeadData && v.isDead then r
    else if v.name ∈ pass_as_param_buffer then
      if isAggMbrVarKindB v.varKind then r else v :: r
    else r

/-- The scalar arguments selected by emitVarFuncParamInMain for the call to
test inside main (program.cpp 880 to 923): the same selection as
emitVarFuncParam (the rendering differs: unique pointers are move-wrapped). -/
def emitVarFuncParamInMain (opts : Opts) (pass_as_param_buffer : List String) :
    List ScalarVar → List ScalarVar
  | [] => []
  | v :: rest =>
    let r := emitVarFuncParamInMain opts pass_as_param_buffer rest
    if !opts.allowDeadData && v.isDead then r
    else if v.name ∈ pass_as_param_buffer then
      if isAggMbrVarKindB v.varKind then r else v :: r
    else r

/-- The array parameters selected by emitArrayFuncParam (program.cpp 925 to
956): live arrays whose name is in the pass-as-param buffer and whose kind is
not an aggregate member. -/
def emitArrayFuncParam (opts : Opts) (pass_as_param_buffer : List String) :
    List Array → List Array
  | [] => []
  | a :: rest =>
    let r := emitArrayFuncParam opts pass_as_param_buffer rest
    if !opts.allowDeadData && a.isDead then r
    else if a.name ∈ pass_as_param_buffer then
      if isAggMbrArrKindB a.arrKind then r else a :: r
    else r

/-- emitVarExtDecl splits the live scalars by the pass decision: externs are
the kept scalars that were not chosen, the buffer holds the names of the kept
scalars that were chosen, both in table order. -/
theorem emitVarExtDecl_eq (opts : Opts) (oracles : Oracles) (c : Bool)
    (vars : List ScalarVar) :
    emitVarExtDecl opts oracles c vars
      = (vars.filter (fun v =>
            keptB opts v.isDead && !passDecisionVar opts oracles c v),
         (vars.filter (fun v =>
            keptB opts v.isDead && passDecisionVar opts oracles c v)).map
           (fun v => v.name)) := by
  induction vars with
  | nil => rfl
  | cons v rest ih =>
    by_cases hd : (!opts.allowDeadData && v.isDead) = true
    · have hk : keptB opts v.isDead = false := by simp [keptB, hd]
      simp [emitVarExtDecl, hd, hk, List.filter, ih]
    · have hk : keptB opts v.isDead = true := by
        simp only [keptB]; simp only [Bool.not_eq_true] at hd; simp [hd]
      by_cases hp : passDecisionVar opts oracles c v = true
      · simp [emitVarExtDecl, hd, hk, hp, List.filter, ih]
      · simp only [Bool.not_eq_true] at hp
        simp [emitVarExtDecl, hd, hk, hp, List.filter, ih]

/-- When emitArrayExtDecl succeeds, it splits the live arrays the same way as
the scalar version. -/
theorem emitArrayExtDecl_ok_eq (opts : Opts) (oracles : Oracles) (c : Bool)
    (arrays : List Array) (r : List Array × List String)
    (h : emitArrayExtDecl opts oracles c arrays = Except.ok r) :
    r = (arrays.filter (fun a =>
            keptB opts a.isDead && !passDecisionArr opts oracles c a),
         (arrays.filter (fun a =>
            keptB opts a.isDead && passDecisionArr opts oracles c a)).map
           (fun a => a.name)) := by
  induction arrays generalizing r with
  | nil => simp [emitArrayExtDecl] at h; simp [← h]
  | cons a rest ih =>
    by_cases hd : (!opts.allowDeadData && a.isDead) = true
    · have hk : keptB opts a.isDead = false := by simp [keptB, hd]
      rw [emitArrayExtDecl] at h
      simp only [hd, if_true] at h
      simp [List.filter, hk, ih r h]
    · have hk : keptB opts a.isDead = true := by
        simp only [keptB]; simp only [Bool.not_eq_true] at hd; simp [hd]
      rw [emitArrayExtDecl] at h
      simp only [hd, Bool.false_eq_true, if_false] at h
      by_cases hp : passDecisionArr opts oracles c a = true
      · simp only [hp, if_true] at h
        cases hrest : emitArrayExtDecl opts oracles c rest with
        | error e => rw [hrest] at h; simp [Except.map] at h
        | ok r0 =>
          rw [hrest] at h; simp only [Except.map, Except.ok.injEq] at h
          have := ih r0 hrest
          simp [List.filter, hk, hp, ← h, this]
      · simp only [hp, Bool.false_eq_true, if_false] at h
        by_cases he : alignErrB opts oracles a = true
        · simp [he] at h
        · simp only [he, Bool.false_eq_true, if_false] at h
          cases hrest : emitArrayExtDecl opts oracles c rest with
          | error e => rw [hrest] at h; simp [Except.map] at h
          | ok r0 =>
            rw [hrest] at h; simp only [Except.map, Except.ok.injEq] at h
            have := ih r0 hrest
            simp only [Bool.not_eq_true] at hp
            simp [List.filter, hk, hp, ← h, this]

/-- emitVarFuncParam keeps exactly the live, recorded, non-aggregate-member
scalars, in table order. -/
theorem emitVarFuncParam_eq (opts : Opts) (ps : List String)
    (vars : List ScalarVar) :
    emitVarFuncParam opts ps vars
      = vars.filter (fun v =>
          keptB opts v.isDead && decide (v.name ∈ ps)
            && !isAggMbrVarKindB v.varKind) := by
  induction vars with
  | nil => rfl
  | cons v rest ih =>
    by_cases hd : (!opts.allowDeadData && v.isDead) = true
    · have hk : keptB opts v.isDead = false := by simp [keptB, hd]
      simp [emitVarFuncParam, hd, hk, List.filter, ih]
    · have hk : keptB opts v.isDead = true := by
        simp only [keptB]; simp only [Bool.not_eq_true] at hd; simp [hd]
      by_cases hm : v.name ∈ ps
      · by_cases hag : isAggMbrVarKindB v.varKind = true
        · simp [emitVarFuncParam, hd, hk, hm, hag, List.filter, ih]
        · simp only [Bool.not_eq_true] at hag
          simp [emitVarFuncParam, hd, hk, hm, hag, List.filter, ih]
      · simp [emitVarFuncParam, hd, hk, hm, List.filter, ih]

/-- emitVarFuncParamInMain selects the same scalars as emitVarFuncParam. -/
theorem emitVarFuncParamInMain_eq (opts : Opts) (ps : List String)
    (vars : List ScalarVar) :
    emitVarFuncParamInMain opts ps vars
      = vars.filter (fun v =>
          keptB opts v.isDead && decide (v.name ∈ ps)
            && !isAggMbrVarKindB v.varKind) := by
  induction vars with
  | nil => rfl
  | cons v rest ih =>
    by_cases hd : (!opts.allowDeadData && v.isDead) = true
    · have hk : keptB opts v.isDead = false := by simp [keptB, hd]
      simp [emitVarFuncParamInMain, hd, hk, List.filter, ih]
    · have hk : keptB opts v.isDead = true := by
        simp only [keptB]; simp only [Bool.not_eq_true] at hd; simp [hd]
      by_cases hm : v.name ∈ ps
      · by_cases hag : isAggMbrVarKindB v.varKind = true
        · simp [emitVarFuncParamInMain, hd, hk, hm, hag, List.filter, ih]
        · simp only [Bool.not_eq_true] at hag
          simp [emitVarFuncParamInMain, hd, hk, hm, hag, List.filter, ih]
      · simp [emitVarFuncParamInMain, hd, hk, hm, List.filter, ih]

/-- emitArrayFuncParam keeps exactly the live, recorded, non-aggregate-member
arrays, in table order. -/
theorem emitArrayFuncParam_eq (opts : Opts) (ps : List String)
    (arrays : List Array) :
    emitArrayFuncParam opts ps arrays
      = arrays.filter (fun a =>
          keptB opts a.isDead && decide (a.name ∈ ps)
            && !isAggMbrArrKindB a.arrKind) := by
  induction arrays with
  | nil => rfl
  | cons a rest ih =>
    by_cases hd : (!opts.allowDeadData && a.isDead) = true
    · have hk : keptB opts a.isDead = false := by simp [keptB, hd]
      simp [emitArrayFuncParam, hd, hk, List.filter, ih]
    · have hk : keptB opts a.isDead = true := by
        simp only [keptB]; simp only [Bool.not_eq_true] at hd; simp [hd]
      by_cases hm : a.name ∈ ps
      · by_cases hag : isAggMbrArrKindB a.arrKind = true
        · simp [emitArrayFuncParam, hd, hk, hm, hag, List.filter, ih]
        · simp only [Bool.not_eq_true] at hag
          simp [emitArrayFuncParam, hd, hk, hm, hag, List.filter, ih]
      · simp [emitArrayFuncParam, hd, hk, hm, List.filter, ih]

/-- Claim C4: for every live input scalar (kind NORMAL or PTR) and every live
input array (kind NORMAL) that is not an aggregate member, under every
parameter-passing policy: the symbol appears among the test-signature
parameters and among the call-site arguments in main exactly when its name
was recorded in the ordered pass-as-param buffer, and it receives an extern
declaration exactly when it was not recorded.  Table names are unique
(spec section 3 invariant). -/
theorem claim_C4 (opts : Opts) (oracles : Oracles)
    (inpVars : List ScalarVar) (inpArrays : List Array)
    (hnod : ((inpVars.map ScalarVar.name) ++ (inpArrays.map Array.name)).Nodup)
    (extA : List Array) (passA : List String)
    (hokA : emitArrayExtDecl opts oracles true inpArrays
        = Except.ok (extA, passA)) :
    (∀ v ∈ inpVars, v.isDead = false →
      (v.varKind = VarKindID.NORMAL ∨ v.varKind = VarKindID.PTR) →
      ((v ∈ emitVarFuncParam opts
            ((emitVarExtDecl opts oracles true inpVars).2 ++ passA) inpVars
          ↔ v.name ∈ (emitVarExtDecl opts oracles true inpVars).2 ++ passA)
       ∧ (v ∈ emitVarFuncParamInMain opts
            ((emitVarExtDecl opts oracles true inpVars).2 ++ passA) inpVars
          ↔ v.name ∈ (emitVarExtDecl opts oracles true inpVars).2 ++ passA)
       ∧ (v ∈ (emitVarExtDecl opts oracles true inpVars).1
          ↔ v.name ∉ (emitVarExtDecl opts oracles true inpVars).2 ++ passA)))
    ∧ (∀ a ∈ inpArrays, a.isDead = false → a.arrKind = ArrKindID.NORMAL →
      ((a ∈ emitArrayFuncParam opts
            ((emitVarExtDecl opts oracles true inpVars).2 ++ passA) inpArrays
          ↔ a.name ∈ (emitVarExtDecl opts oracles true inpVars).2 ++ passA)
       ∧ (a ∈ extA
          ↔ a.name ∉ (emitVarExtDecl opts oracles true inpVars).2 ++ passA))) := by
  have hsplitV := emitVarExtDecl_eq opts oracles true inpVars
  have hsplitA := emitArrayExtDecl_ok_eq opts oracles true inpArrays
    (extA, passA) hokA
  have hpassV : (emitVarExtDecl opts oracles true inpVars).2
      = (inpVars.filter (fun v =>
          keptB opts v.isDead && passDecisionVar opts oracles true v)).map
          (fun v => v.name) := by rw [hsplitV]
  have hextV : (emitVarExtDecl opts oracles true inpVars).1
      = inpVars.filter (fun v =>
          keptB opts v.isDead && !passDecisionVar opts oracles true v) := by
    rw [hsplitV]
  have hpassA : passA
      = (inpArrays.filter (fun a =>
          keptB opts a.isDead && passDecisionArr opts oracles true a)).map
          (fun a => a.name) := congrArg Prod.snd hsplitA
  have hextA : extA
      = inpArrays.filter (fun a =>
          keptB opts a.isDead && !passDecisionArr opts oracles true a) :=
    congrArg Prod.fst hsplitA
  have hnodV : (inpVars.map ScalarVar.name).Nodup := hnod.of_append_left
  have hnodA : (inpArrays.map Array.name).Nodup := hnod.of_append_right
  have hdisj : (inpVars.map ScalarVar.name).Disjoint (inpArrays.map Array.name) :=
    List.disjoint_of_nodup_append hnod
  constructor
  · intro v hv hlive hkind
    have hkept : keptB opts v.isDead = true := by simp [keptB, hlive]
    have hagg : isAggMbrVarKindB v.varKind = false := by
      rcases hkind with h | h <;> simp [isAggMbrVarKindB, h]
    have hnameV : v.name ∈ inpVars.map ScalarVar.name :=
      List.mem_map_of_mem _ hv
    have key : v.name ∈ (emitVarExtDecl opts oracles true inpVars).2 ++ passA
        ↔ passDecisionVar opts oracles true v = true := by
      constructor
      · intro hmem
        rcases List.mem_append.mp hmem with hmem | hmem
        · rw [hpassV] at hmem
          rcases List.mem_map.mp hmem with ⟨w, hw, hwname⟩
          have hwv : w ∈ inpVars := (List.mem_filter.mp hw).1
          have hwv' : w = v := List.inj_on_of_nodup_map hnodV hwv hv hwname
          subst hwv'
          have hp := (List.mem_filter.mp hw).2
          simp only [Bool.and_eq_true] at hp
          exact hp.2
        · exfalso
          apply hdisj hnameV
          rw [hpassA] at hmem
          rcases List.mem_map.mp hmem with ⟨w, hw, hwname⟩
          exact hwname ▸ List.mem_map_of_mem _ (List.mem_filter.mp hw).1
      · intro hdec
        apply List.mem_append.mpr
        left
        rw [hpassV]
        exact List.mem_map_of_mem _
          (List.mem_filter.mpr ⟨hv, by simp [hkept, hdec]⟩)
    refine ⟨?_, ?_, ?_⟩
    · rw [emitVarFuncParam_eq]
      constructor
      · intro hmem
        have hp := (List.mem_filter.mp hmem).2
        simp only [Bool.and_eq_true, decide_eq_true_eq] at hp
        exact hp.1.2
      · intro hmem
        exact List.mem_filter.mpr ⟨hv, by simp [hkept, hagg, hmem]⟩
    · rw [emitVarFuncParamInMain_eq]
      constructor
      · intro hmem
        have hp := (List.mem_filter.mp hmem).2
        simp only [Bool.and_eq_true, decide_eq_true_eq] at hp
        exact hp.1.2
      · intro hmem
        exact List.mem_filter.mpr ⟨hv, by simp [hkept, hagg, hmem]⟩
    · rw [hextV]
      constructor
      · intro hmem hname
        have hp := (List.mem_filter.mp hmem).2
        simp only [Bool.and_eq_true, Bool.not_eq_true'] at hp
        rw [key.mp hname] at hp
        exact absurd hp.2 (by simp)
      · intro hname
        have hdec : passDecisionVar opts oracles true v = false := by
          by_contra hcon
          simp only [Bool.not_eq_false] at hcon
          exact hname (key.mpr hcon)
        exact List.mem_filter.mpr ⟨hv, by simp [hkept, hdec]⟩
  · intro a ha halive hakind
    have hkept : keptB opts a.isDead = true := by simp [keptB, halive]
    have hagg : isAggMbrArrKindB a.arrKind = false := by
      simp [isAggMbrArrKindB, hakind]
    have hnameA : a.name ∈ inpArrays.map Array.name := List.mem_map_of_mem _ ha
    have key : a.name ∈ (emitVarExtDecl opts oracles true inpVars).2 ++ passA
        ↔ passDecisionArr opts oracles true a = true := by
      constructor
      · intro hmem
        rcases List.mem_append.mp hmem with hmem | hmem
        · exfalso
          rw [hpassV] at hmem
          rcases List.mem_map.mp hmem with ⟨w, hw, hwname⟩
          exact hdisj (hwname ▸ List.mem_map_of_mem _ (List.mem_filter.mp hw).1)
            hnameA
        · rw [hpassA] at hmem
          rcases List.mem_map.mp hmem with ⟨w, hw, hwname⟩
          have hwv : w ∈ inpArrays := (List.mem_filter.mp hw).1
          have hwv' : w = a := List.inj_on_of_nodup_map hnodA hwv ha hwname
          subst hwv'
          have hp := (List.mem_filter.mp hw).2
          simp only [Bool.and_eq_true] at hp
          exact hp.2
      · intro hdec
        apply List.mem_append.mpr
        right
        rw [hpassA]
        exact List.mem_map_of_mem _
          (List.mem_filter.mpr ⟨ha, by simp [hkept, hdec]⟩)
    constructor
    · rw [emitArrayFuncParam_eq]
      constructor
      · intro hmem
        have hp := (List.mem_filter.mp hmem).2
        simp only [Bool.and_eq_true, decide_eq_true_eq] at hp
        exact hp.1.2
      · intro hmem
        exact List.mem_filter.mpr ⟨ha, by simp [hkept, hagg, hmem]⟩
    · rw [hextA]
      constructor
      · intro hmem hname
        have hp := (List.mem_filter.mp hmem).2
        simp only [Bool.and_eq_true, Bool.not_eq_true'] at hp
        rw [key.mp hname] at hp
        exact absurd hp.2 (by simp)
      · intro hname
        have hdec : passDecisionArr opts oracles true a = false := by
          by_contra hcon
          simp only [Bool.not_eq_false] at hcon
          exact hname (key.mpr hcon)
        exact List.mem_filter.mpr ⟨ha, by simp [hkept, hdec]⟩

/-- A concrete oracle set for evaluations: never pass under SOME, never emit
the alignment attribute under SOME, always draw A16. -/
def oraclesEx : Oracles :=
  { passVar := fun _ => false
    passArr := fun _ => false
    emitAlignAttrO := fun _ => false
    alignSizeO := fun _ => AlignmentSize.A16
    narrowAlign := AlignmentSize.A16 }

/-- A concrete live NORMAL-kind input scalar. -/
def varEx1 : ScalarVar :=
  { name := "var_1"
    nameWithoutPrefix := "var_1"
    typeName := "int"
    varKind := VarKindID.NORMAL
    ptrType := PtrTypeID.MAX_PTR_TYPE
    isDead := false
    initValue := 0
    currentValue := 5
    isFunc := false
    originName := "var_1" }

/-- Options with the ALL parameter-passing policy. -/
def optsAll : Opts := { optsEx with inpAsArgs := OptionLevel.ALL }

/-- Witness for claim C4, at the ALL policy with one input scalar and one
input array: the hypotheses hold and the signature-membership equivalence
follows by applying the theorem. -/
theorem claim_C4_witness :
    (([varEx1].map ScalarVar.name ++ [arrEx1].map Array.name).Nodup
      ∧ emitArrayExtDecl optsAll oraclesEx true [arrEx1]
          = Except.ok ([], ["arr_5"])
      ∧ varEx1.isDead = false)
    ∧ (varEx1 ∈ emitVarFuncParam optsAll
          ((emitVarExtDecl optsAll oraclesEx true [varEx1]).2 ++ ["arr_5"])
          [varEx1]
        ↔ varEx1.name
            ∈ (emitVarExtDecl optsAll oraclesEx true [varEx1]).2 ++ ["arr_5"]) :=
  ⟨⟨by decide, by rfl, by rfl⟩,
    ((claim_C4 optsAll oraclesEx [varEx1] [arrEx1] (by decide) [] ["arr_5"]
        (by rfl)).1 varEx1 (by simp) (by rfl) (Or.inl (by rfl))).1⟩

/-- placeSep (program.cpp 828): the separator written before a parameter
when any parameter has already been written. -/
def placeSep (cond : Bool) : String := if cond then ", " else ""

/-- The rendered type-and-name text of one scalar parameter in
emitVarFuncParam (program.cpp 850 to 869): smart-pointer parameters render
as std::shared_ptr or std::unique_ptr of the base type, everything else as
type plus name (the origin name for function-backed variables). -/
def varParamText (v : ScalarVar) : String :=
  match v.ptrType with
  | PtrTypeID.SHARED =>
    "std::shared_ptr<" ++ v.typeName ++ "> " ++ v.nameWithoutPrefix
  | PtrTypeID.UNIQUE =>
    "std::unique_ptr<" ++ v.typeName ++ "> " ++ v.nameWithoutPrefix
  | _ => v.typeName ++ " " ++ (if v.isFunc then v.originName else v.name)

/-- The rendered text of one scalar argument in emitVarFuncParamInMain
(program.cpp 899 to 917): unique pointers are move-wrapped, other pointers
use the plain name, and the optional leading type is controlled by
emit_type. -/
def varArgTextInMain (v : ScalarVar) (emit_type : Bool) : String :=
  (if emit_type then v.typeName ++ " " else "")
    ++ (if v.varKind = VarKindID.PTR then
          (if v.ptrType = PtrTypeID.UNIQUE then
            "std::move(" ++ v.nameWithoutPrefix ++ ")"
          else v.nameWithoutPrefix)
        else (if v.isFunc then v.originName else v.name))

/-- The aggregate tail written unconditionally at the end of emitVarFuncParam
(program.cpp 875). -/
def aggSigText : String :=
  ", GlobalStruct struct_1, DynamicStruct* struct_2, GlobalClass object_1, DynamicClass* object_2 "

/-- The aggregate tail written unconditionally at the end of
emitVarFuncParamInMain (program.cpp 920). -/
def aggMainText : String := ", struct_1, struct_2, object_1, object_2"

/-- The scalar-parameter loop of emitVarFuncParam at string level
(program.cpp 837 to 873), threading the emit_any separator flag. -/
def emitVarFuncParamStrGo (opts : Opts) (passed : List String)
    (emit_type : Bool) : List ScalarVar → Bool → String × Bool
  | [], emit_any => ("", emit_any)
  | v :: rest, emit_any =>
    if !opts.allowDeadData && v.isDead then
      emitVarFuncParamStrGo opts passed emit_type rest emit_any
    else if v.name ∈ passed then
      if isAggMbrVarKindB v.varKind then
        emitVarFuncParamStrGo opts passed emit_type rest emit_any
      else
        let r := emitVarFuncParamStrGo opts passed emit_type rest true
        (placeSep emit_any ++ (if emit_type then varParamText v else "") ++ r.1,
         r.2)
    else emitVarFuncParamStrGo opts passed emit_type rest emit_any

/-- emitVarFuncParam at string level (program.cpp 830 to 878): the scalar
parameters followed by the unconditional aggregate tail. -/
def emitVarFuncParamStr (opts : Opts) (passed : List String) (emit_type : Bool)
    (vars : List ScalarVar) : String :=
  (emitVarFuncParamStrGo opts passed emit_type vars false).1 ++ aggSigText

/-- The scalar-argument loop of emitVarFuncParamInMain at string level
(program.cpp 887 to 919). -/
def emitVarFuncParamInMainStrGo (opts : Opts) (passed : List String)
    (emit_type : Bool) : List ScalarVar → Bool → String × Bool
  | [], emit_any => ("", emit_any)
  | v :: rest, emit_any =>
    if !opts.allowDeadData && v.isDead then
      emitVarFuncParamInMainStrGo opts passed emit_type rest emit_any
    else if v.name ∈ passed then
      if isAggMbrVarKindB v.varKind then
        emitVarFuncParamInMainStrGo opts passed emit_type rest emit_any
      else
        let r := emitVarFuncParamInMainStrGo opts passed emit_type rest true
        (placeSep emit_any ++ varArgTextInMain v emit_type ++ r.1, r.2)
    else emitVarFuncParamInMainStrGo opts passed emit_type rest emit_any

/-- emitVarFuncParamInMain at string level (program.cpp 880 to 923): the
scalar arguments followed by the unconditional aggregate tail. -/
def emitVarFuncParamInMainStr (opts : Opts) (passed : List String)
    (emit_type : Bool) (vars : List ScalarVar) : String :=
  (emitVarFuncParamInMainStrGo opts passed emit_type vars false).1 ++ aggMainText

/-- With an empty pass-as-param buffer the scalar-parameter loop emits
nothing and leaves the separator flag unchanged. -/
theorem emitVarFuncParamStrGo_nil_passed (opts : Opts) (emit_type : Bool)
    (vars : List ScalarVar) (e : Bool) :
    emitVarFuncParamStrGo opts [] emit_type vars e = ("", e) := by
  induction vars with
  | nil => rfl
  | cons v rest ih => simp [emitVarFuncParamStrGo, ih]

/-- With an empty pass-as-param buffer the main-call scalar-argument loop
emits nothing and leaves the separator flag unchanged. -/
theorem emitVarFuncParamInMainStrGo_nil_passed (opts : Opts) (emit_type : Bool)
    (vars : List ScalarVar) (e : Bool) :
    emitVarFuncParamInMainStrGo opts [] emit_type vars e = ("", e) := by
  induction vars with
  | nil => rfl
  | cons v rest ih => simp [emitVarFuncParamInMainStrGo, ih]

/-- Claim C10: the separator before the four aggregate-instance arguments is
emitted unconditionally.  Under the NONE policy nothing is recorded in the
pass-as-param buffer; with an empty buffer the rendered test parameter list
and the rendered call argument list are exactly the aggregate tails, which
begin with a comma; and in general the rendered scalar parameter list always
ends with the aggregate tail glued on by the unconditional write. -/
theorem claim_C10 :
    (∀ (opts : Opts) (oracles : Oracles) (vars : List ScalarVar),
      (emitVarExtDecl { opts with inpAsArgs := OptionLevel.NONE } oracles true
          vars).2 = [])
    ∧ (∀ (opts : Opts) (emit_type : Bool) (vars : List ScalarVar),
        emitVarFuncParamStr opts [] emit_type vars = aggSigText)
    ∧ (∀ (opts : Opts) (emit_type : Bool) (vars : List ScalarVar),
        emitVarFuncParamInMainStr opts [] emit_type vars = aggMainText)
    ∧ aggSigText.take 2 = ", "
    ∧ aggMainText.take 2 = ", "
    ∧ (∀ (opts : Opts) (passed : List String) (emit_type : Bool)
          (vars : List ScalarVar), ∃ p,
        emitVarFuncParamStr opts passed emit_type vars = p ++ aggSigText) := by
  refine ⟨?_, ?_, ?_, by rfl, by rfl, ?_⟩
  · intro opts oracles vars
    rw [emitVarExtDecl_eq]
    simp [passDecisionVar]
  · intro opts emit_type vars
    rw [emitVarFuncParamStr, emitVarFuncParamStrGo_nil_passed]
    rfl
  · intro opts emit_type vars
    rw [emitVarFuncParamInMainStr, emitVarFuncParamInMainStrGo_nil_passed]
    rfl
  · intro opts passed emit_type vars
    exact ⟨(emitVarFuncParamStrGo opts passed emit_type vars false).1, rfl⟩

/-- The four aggregate parameter tokens of the test signature, as positional
tokens (program.cpp 875). -/
def aggSigTokens : List String :=
  ["GlobalStruct struct_1", "DynamicStruct* struct_2", "GlobalClass object_1",
   "DynamicClass* object_2"]

/-- The four aggregate argument tokens of the call in main (program.cpp 920). -/
def aggMainTokens : List String := ["struct_1", "struct_2", "object_1", "object_2"]

/-- The positional parameter list of the test signature assembled by
ProgramGenerator.emitTest (program.cpp 986 to 1000): the scalar parameters of
emitVarFuncParam, the four aggregate parameters that emitVarFuncParam itself
appends unconditionally, and then the array parameters appended afterwards by
emitArrayFuncParam.  Scalar and array entries are identified by symbol name. -/
def emitTestParamNames (opts : Opts) (passed : List String)
    (inpVars : List ScalarVar) (inpArrays : List Array) : List String :=
  (emitVarFuncParam opts passed inpVars).map (fun v => v.name)
    ++ aggSigTokens
    ++ (emitArrayFuncParam opts passed inpArrays).map (fun a => a.name)

/-- The positional argument list of the call to test in
ProgramGenerator.emitMain (program.cpp 1037 to 1047): scalar arguments, the
aggregate arguments appended by emitVarFuncParamInMain, then the array
arguments appended afterwards by emitArrayFuncParam. -/
def emitMainArgNames (opts : Opts) (passed : List String)
    (inpVars : List ScalarVar) (inpArrays : List Array) : List String :=
  (emitVarFuncParamInMain opts passed inpVars).map (fun v => v.name)
    ++ aggMainTokens
    ++ (emitArrayFuncParam opts passed inpArrays).map (fun a => a.name)

/-- Claim C5, counterexample: with the ALL policy and one live input array,
the array is recorded in the pass-as-param buffer and the assembled test
signature and main call place its parameter AFTER the four aggregate
instances, so the aggregates are not the final trailing arguments. -/
theorem claim_C5_counterexample :
    emitArrayExtDecl optsAll oraclesEx true [arrEx1] = Except.ok ([], ["arr_5"])
    ∧ emitTestParamNames optsAll ["arr_5"] [] [arrEx1]
      = ["GlobalStruct struct_1", "DynamicStruct* struct_2",
         "GlobalClass object_1", "DynamicClass* object_2", "arr_5"]
    ∧ (emitTestParamNames optsAll ["arr_5"] [] [arrEx1]).getLast? = some "arr_5"
    ∧ emitMainArgNames optsAll ["arr_5"] [] [arrEx1]
      = ["struct_1", "struct_2", "object_1", "object_2", "arr_5"] := by
  refine ⟨by rfl, by rfl, by rfl, by rfl⟩

/-- Claim C5, corrected form: under every parameter-passing policy the four
aggregate instances appear immediately after the policy-selected scalar and
pointer parameters and BEFORE the array parameters, in both the test
signature and the call in main; they are the final trailing arguments exactly
when no array parameter is selected. -/
theorem claim_C5 (opts : Opts) (passed : List String)
    (inpVars : List ScalarVar) (inpArrays : List Array) :
    (emitTestParamNames opts passed inpVars inpArrays
      = ((inpVars.filter (fun v =>
            keptB opts v.isDead && decide (v.name ∈ passed)
              && !isAggMbrVarKindB v.varKind)).map (fun v => v.name))
        ++ aggSigTokens
        ++ ((inpArrays.filter (fun a =>
            keptB opts a.isDead && decide (a.name ∈ passed)
              && !isAggMbrArrKindB a.arrKind)).map (fun a => a.name)))
    ∧ (emitMainArgNames opts passed inpVars inpArrays
      = ((inpVars.filter (fun v =>
            keptB opts v.isDead && decide (v.name ∈ passed)
              && !isAggMbrVarKindB v.varKind)).map (fun v => v.name))
        ++ aggMainTokens
        ++ ((inpArrays.filter (fun a =>
            keptB opts a.isDead && decide (a.name ∈ passed)
              && !isAggMbrArrKindB a.arrKind)).map (fun a => a.name)))
    ∧ (emitArrayFuncParam opts passed inpArrays = [] →
        emitTestParamNames opts passed inpVars inpArrays
          = (emitVarFuncParam opts passed inpVars).map (fun v => v.name)
            ++ aggSigTokens) := by
  refine ⟨?_, ?_, ?_⟩
  · rw [emitTestParamNames, emitVarFuncParam_eq, emitArrayFuncParam_eq]
  · rw [emitMainArgNames, emitVarFuncParamInMain_eq, emitArrayFuncParam_eq]
  · intro h
    rw [emitTestParamNames, h]
    simp

/-- Witness for claim C5: an input table with no array parameter, where the
aggregate tokens close the signature. -/
theorem claim_C5_witness :
    emitArrayFuncParam optsAll ["var_1"] ([] : List Array) = []
    ∧ emitTestParamNames optsAll ["var_1"] [varEx1] []
      = (emitVarFuncParam optsAll ["var_1"] [varEx1]).map (fun v => v.name)
        ++ aggSigTokens :=
  ⟨by rfl, (claim_C5 optsAll ["var_1"] [varEx1] []).2.2 (by rfl)⟩

/-- The right-hand side of one emitted array element assignment: a plain
constant, or the multi-value-axis ternary
(i_axis % N == m) ? mainVal : altVal. -/
inductive InitRHS
  | const (v : Nat)
  | ternary (axis n m mainVal altVal : Nat)
deriving DecidableEq, Repr

/-- The element-value expression built by emitArrayInit (program.cpp 567 to
583) and, with identical text, by the dynamic-class constructor loop nest of
emitDynamicClassDecl (program.cpp 492 to 511): the main-stream initial value
when the array has no multi-value axis, otherwise the ternary over
Options::vals_number and Options::main_val_idx. -/
def arrayInitRHS (opts : Opts) (a : Array) : InitRHS :=
  match a.mulValsAxisIdx with
  | none => InitRHS.const (a.getInitValues true)
  | some ax =>
    InitRHS.ternary ax opts.valsNumber opts.mainValIdx
      (a.getInitValues true) (a.getInitValues false)

/-- Evaluation of an element assignment at an index tuple (outermost loop
variable first): the ternary selects the main stream exactly when the index
on the designated axis satisfies i % N == m. -/
def evalInitRHS (rhs : InitRHS) (ix : List Nat) : Nat :=
  match rhs with
  | InitRHS.const v => v
  | InitRHS.ternary ax n m mainVal altVal =>
    if ix.getD ax 0 % n = m then mainVal else altVal

/-- One emitted loop-nest assignment of the init routine or of the
dynamic-class constructor. -/
structure InitNest where
  arr : Array
  rhs : InitRHS
deriving DecidableEq, Repr

/-- emitArrayInit (program.cpp 544 to 585): skips DYN_CLASS_MBR arrays
(their members are initialized inside the dynamic-class constructor) and
dead arrays when dead data is not allowed; emits one loop nest per remaining
array assigning arrayInitRHS to every element. -/
def emitArrayInit (opts : Opts) : List Array → List InitNest
  | [] => []
  | a :: rest =>
    let r := emitArrayInit opts rest
    if a.arrKind = ArrKindID.DYN_CLASS_MBR then r
    else if !opts.allowDeadData && a.isDead then r
    else { arr := a, rhs := arrayInitRHS opts a } :: r

/-- The constructor loop nests of emitDynamicClassDecl (program.cpp 480 to
512): one per buffered dynamic-class member array, assigning the same
arrayInitRHS expression; the loop applies no filter of its own (the buffer
was filled during emitArrayDecl). -/
def dynClassCtorInits (opts : Opts) (dyn_class_arr_mbr_buffer : List Array) :
    List InitNest :=
  dyn_class_arr_mbr_buffer.map (fun a => { arr := a, rhs := arrayInitRHS opts a })

/-- emitVarMemberInit (program.cpp 587 to 600): flat member assignments in
buffer order, STOPPING at the first DYN_CLASS_MBR entry (break, not
continue).  Returns the assigned variables. -/
def emitVarMemberInit : List ScalarVar → List ScalarVar
  | [] => []
  | v :: rest =>
    if v.varKind = VarKindID.DYN_CLASS_MBR then []
    else v :: emitVarMemberInit rest

/-- emitArrayInit emits one loop nest per live non-DYN_CLASS_MBR array, in
table order, assigning arrayInitRHS. -/
theorem emitArrayInit_eq (opts : Opts) (arrays : List Array) :
    emitArrayInit opts arrays
      = (arrays.filter (fun a =>
          !(a.arrKind = ArrKindID.DYN_CLASS_MBR) && keptB opts a.isDead)).map
          (fun a => { arr := a, rhs := arrayInitRHS opts a }) := by
  induction arrays with
  | nil => rfl
  | cons a rest ih =>
    by_cases hk : a.arrKind = ArrKindID.DYN_CLASS_MBR
    · simp [emitArrayInit, hk, List.filter, ih]
    · by_cases hd : (!opts.allowDeadData && a.isDead) = true
      · have hkept : keptB opts a.isDead = false := by simp [keptB, hd]
        simp [emitArrayInit, hk, hd, hkept, List.filter, ih]
      · have hkept : keptB opts a.isDead = true := by
          simp only [keptB]; simp only [Bool.not_eq_true] at hd; simp [hd]
        simp [emitArrayInit, hk, hd, hkept, List.filter, ih]

/-- For the Asserts algorithm the array loop of emitCheck succeeds and emits,
per non-DYN_CLASS_MBR array, one loop nest comparing every element against
the index-independent literal list assertsCmpLits. -/
theorem emitCheckArrays_asserts_eq (opts : Opts)
    (halgo : opts.checkAlgo = CheckAlgo.ASSERTS) (arrays : List Array) :
    emitCheckArrays opts arrays
      = Except.ok ((arrays.filter
            (fun a => !(a.arrKind = ArrKindID.DYN_CLASS_MBR))).map
          (fun a => CheckStmt.arrLoop a.name a.dims
            (ArrCheckBody.cmpElem (assertsCmpLits a)))) := by
  induction arrays with
  | nil => rfl
  | cons a rest ih =>
    by_cases hk : a.arrKind = ArrKindID.DYN_CLASS_MBR
    · simp [emitCheckArrays, hk, List.filter, ih]
    · simp [emitCheckArrays, hk, halgo, List.filter, ih, Except.map]

/-- Claim C6, corrected form: at init time (the init routine and the
dynamic-class constructor) an element on the multi-value axis uses the main
stream exactly when i % N == m; at checksum time there is NO per-index
selection: the Asserts comparison is the same literal list, containing both
streams, at every index (and the hashing algorithms hash the stored element
with no selection at all). -/
theorem claim_C6 :
    (∀ (opts : Opts) (a : Array) (ax : Nat) (ix : List Nat),
      a.mulValsAxisIdx = some ax →
      evalInitRHS (arrayInitRHS opts a) ix
        = if ix.getD ax 0 % opts.valsNumber = opts.mainValIdx
          then a.getInitValues true else a.getInitValues false)
    ∧ (∀ (opts : Opts) (arrays : List Array),
        emitArrayInit opts arrays
          = (arrays.filter (fun a =>
              !(a.arrKind = ArrKindID.DYN_CLASS_MBR)
                && keptB opts a.isDead)).map
              (fun a => { arr := a, rhs := arrayInitRHS opts a }))
    ∧ (∀ (opts : Opts) (buffer : List Array),
        dynClassCtorInits opts buffer
          = buffer.map (fun a => { arr := a, rhs := arrayInitRHS opts a }))
    ∧ (∀ (opts : Opts) (outArrays : List Array),
        emitCheckArrays { opts with checkAlgo := CheckAlgo.ASSERTS } outArrays
          = Except.ok ((outArrays.filter (fun a =>
              !(a.arrKind = ArrKindID.DYN_CLASS_MBR))).map
              (fun a => CheckStmt.arrLoop a.name a.dims
                (ArrCheckBody.cmpElem (assertsCmpLits a))))) := by
  refine ⟨?_, emitArrayInit_eq, fun opts buffer => rfl, ?_⟩
  · intro opts a ax ix h
    simp [arrayInitRHS, h, evalInitRHS]
  · intro opts outArrays
    exact emitCheckArrays_asserts_eq _ (by rfl) outArrays

/-- Options for the Asserts algorithm with vals_number 3 and main index 0. -/
def optsAsserts : Opts := { optsEx with checkAlgo := CheckAlgo.ASSERTS }

/-- A concrete live output array with a multi-value axis: axis 0, main
initial value 10, alternate initial value 20, main current value 30,
alternate current value 40. -/
def arrEx6 : Array :=
  { name := "arr_1"
    nameWithoutPrefix := "arr_1"
    baseTypeName := "int"
    dims := [4]
    arrKind := ArrKindID.NORMAL
    isDead := false
    alignment := 0
    mulValsAxisIdx := some 0
    initValsMain := 10
    initValsAlt := 20
    curValsMain := 30
    curValsAlt := 40 }

/-- Claim C6, counterexample at the checksum stage: for arrEx6 (period 3,
main index 0) the emitted Asserts comparison is the constant literal list
[30, 10, 40, 20] inside the loop nest, identical at every index — it accepts
the main-stream current value 30 everywhere (no mismatch), although at an
index i with i % 3 ≠ 0 (such as i = 1) the claimed alternate-stream-only
selection would compare against [40, 20] and flag 30 as a mismatch. -/
theorem claim_C6_counterexample :
    emitCheckArrays optsAsserts [arrEx6]
      = Except.ok [CheckStmt.arrLoop "arr_1" [4]
          (ArrCheckBody.cmpElem [30, 10, 40, 20])]
    ∧ cmpMismatch (ArrCheckBody.cmpElem [30, 10, 40, 20]) 30 = false
    ∧ cmpMismatch (ArrCheckBody.cmpElem [40, 20]) 30 = true
    ∧ 1 % optsAsserts.valsNumber ≠ optsAsserts.mainValIdx := by
  refine ⟨by rfl, by rfl, by rfl, by decide⟩

/-- Witness for claim C6: the init-time selection evaluated on arrEx6 at
index tuple [1]. -/
theorem claim_C6_witness :
    arrEx6.mulValsAxisIdx = some 0
    ∧ evalInitRHS (arrayInitRHS optsEx arrEx6) [1]
        = if [1].getD 0 0 % optsEx.valsNumber = optsEx.mainValIdx
          then arrEx6.getInitValues true else arrEx6.getInitValues false :=
  ⟨by rfl, claim_C6.1 optsEx arrEx6 0 [1] (by rfl)⟩

/-- All scalar-member buffer entries, concatenated. -/
def VarBufs.toList (b : VarBufs) : List ScalarVar :=
  b.structMbr ++ b.classMbr ++ b.classPrivMbr ++ b.dynStructMbr ++ b.dynClassMbr

/-- All array-member buffer entries, concatenated. -/
def ArrBufs.toList (b : ArrBufs) : List Array :=
  b.structMbr ++ b.classMbr ++ b.dynStructMbr ++ b.dynClassMbr

/-- Pushing one scalar into the buffers preserves a predicate that holds of
the pushed scalar and of every buffered entry. -/
theorem consVarBufs_all (p : ScalarVar → Bool) (v : ScalarVar) (b : VarBufs)
    (hv : p v = true) (hb : b.toList.all p = true) :
    (consVarBufs v b).toList.all p = true := by
  simp only [VarBufs.toList, List.all_append, Bool.and_eq_true] at hb
  cases hk : v.varKind <;>
    simp [consVarBufs, VarBufs.toList, hk, List.all_append, hb, hv]

/-- Pushing one array into the buffers preserves a predicate that holds of
the pushed array and of every buffered entry. -/
theorem consArrBufs_all (p : Array → Bool) (a : Array) (b : ArrBufs)
    (ha : p a = true) (hb : b.toList.all p = true) :
    (consArrBufs a b).toList.all p = true := by
  simp only [ArrBufs.toList, List.all_append, Bool.and_eq_true] at hb
  cases hk : a.arrKind <;>
    simp [consArrBufs, ArrBufs.toList, hk, List.all_append, hb, ha]

/-- With dead data disallowed, emitVarsDecl declares and buffers only live
scalars. -/
theorem emitVarsDecl_live (opts : Opts) (h : opts.allowDeadData = false)
    (vars : List ScalarVar) :
    ((emitVarsDecl opts vars).1.all (fun v => !v.isDead)) = true
    ∧ ((emitVarsDecl opts vars).2.toList.all (fun v => !v.isDead)) = true := by
  induction vars with
  | nil => exact ⟨rfl, rfl⟩
  | cons v rest ih =>
    by_cases hd : v.isDead = true
    · simp [emitVarsDecl, h, hd, ih]
    · simp only [Bool.not_eq_true] at hd
      have hlive : (!v.isDead) = true := by simp [hd]
      refine ⟨?_, ?_⟩
      · by_cases hk : v.varKind = VarKindID.NORMAL <;>
          simp [emitVarsDecl, h, hd, hk, hlive, ih.1]
      · have hbuf := consVarBufs_all (fun v => !v.isDead) v
          (emitVarsDecl opts rest).2 hlive ih.2
        by_cases hk : v.varKind = VarKindID.NORMAL <;>
          simp [emitVarsDecl, h, hd, hk, hbuf]

/-- With dead data disallowed, emitArrayDecl declares and buffers only live
arrays. -/
theorem emitArrayDecl_live (opts : Opts) (h : opts.allowDeadData = false)
    (arrays : List Array) :
    ((emitArrayDecl opts arrays).1.all (fun a => !a.isDead)) = true
    ∧ ((emitArrayDecl opts arrays).2.toList.all (fun a => !a.isDead)) = true := by
  induction arrays with
  | nil => exact ⟨rfl, rfl⟩
  | cons a rest ih =>
    by_cases hd : a.isDead = true
    · simp [emitArrayDecl, h, hd, ih]
    · simp only [Bool.not_eq_true] at hd
      have hlive : (!a.isDead) = true := by simp [hd]
      refine ⟨?_, ?_⟩
      · by_cases hk : a.arrKind = ArrKindID.NORMAL <;>
          simp [emitArrayDecl, h, hd, hk, hlive, ih.1]
      · have hbuf := consArrBufs_all (fun a => !a.isDead) a
          (emitArrayDecl opts rest).2 hlive ih.2
        by_cases hk : a.arrKind = ArrKindID.NORMAL <;>
          simp [emitArrayDecl, h, hd, hk, hbuf]

/-- A filter output satisfies any predicate implied by the filter condition. -/
theorem all_filter_of_imp {α : Type} (l : List α) (p q : α → Bool)
    (h : ∀ a, p a = true → q a = true) : (l.filter p).all q = true := by
  simp only [List.all_eq_true]
  intro a ha
  exact h a (List.of_mem_filter ha)

/-- With dead data disallowed the kept-symbol condition forces liveness. -/
theorem keptB_false_allow (opts : Opts) (h : opts.allowDeadData = false)
    (d : Bool) : keptB opts d = !d := by
  simp [keptB, h]

/-- Liveness of the extern-declared arrays of an emitArrayExtDecl result (an
aborted run declares nothing). -/
def extArrDeclAllLive (r : Except EmitErr (List Array × List String)) : Bool :=
  match r with
  | Except.error _ => true
  | Except.ok (es, _) => es.all (fun a => !a.isDead)

/-- The prefix taken by emitVarMemberInit preserves an all-predicate. -/
theorem emitVarMemberInit_all (p : ScalarVar → Bool) (l : List ScalarVar)
    (h : l.all p = true) : (emitVarMemberInit l).all p = true := by
  induction l with
  | nil => rfl
  | cons v rest ih =>
    simp only [List.all_cons, Bool.and_eq_true] at h
    by_cases hk : v.varKind = VarKindID.DYN_CLASS_MBR <;>
      simp [emitVarMemberInit, hk, h.1, ih h.2]

/-- Claim C7, corrected form: with dead-data retention disabled no dead
symbol appears in the standalone scalar and array declarations, in the
aggregate-member buffers (hence in the four aggregate type bodies and in the
member assignments of the init routine), in the array assignments of the
init routine, in the extern declarations, or among the function parameters
and call-site arguments.  (The pointer declarations and the checksum routine
do NOT filter dead symbols; see the counterexample.) -/
theorem claim_C7 (opts : Opts) (oracles : Oracles) (passed : List String)
    (vars : List ScalarVar) (arrays : List Array) :
    ((emitVarsDecl { opts with allowDeadData := false } vars).1.all
        (fun v => !v.isDead)) = true
    ∧ ((emitVarsDecl { opts with allowDeadData := false } vars).2.toList.all
        (fun v => !v.isDead)) = true
    ∧ ((emitArrayDecl { opts with allowDeadData := false } arrays).1.all
        (fun a => !a.isDead)) = true
    ∧ ((emitArrayDecl { opts with allowDeadData := false } arrays).2.toList.all
        (fun a => !a.isDead)) = true
    ∧ ((emitVarExtDecl { opts with allowDeadData := false } oracles true
        vars).1.all (fun v => !v.isDead)) = true
    ∧ (extArrDeclAllLive (emitArrayExtDecl { opts with allowDeadData := false }
        oracles true arrays)) = true
    ∧ ((emitVarFuncParam { opts with allowDeadData := false } passed vars).all
        (fun v => !v.isDead)) = true
    ∧ ((emitVarFuncParamInMain { opts with allowDeadData := false } passed
        vars).all (fun v => !v.isDead)) = true
    ∧ ((emitArrayFuncParam { opts with allowDeadData := false } passed
        arrays).all (fun a => !a.isDead)) = true
    ∧ ((emitArrayInit { opts with allowDeadData := false } arrays).all
        (fun n => !n.arr.isDead)) = true
    ∧ ((emitVarMemberInit (emitVarsDecl { opts with allowDeadData := false }
        vars).2.structMbr).all (fun v => !v.isDead)) = true := by
  have hfalse : ({ opts with allowDeadData := false } : Opts).allowDeadData
      = false := rfl
  have hkept : ∀ d : Bool,
      keptB { opts with allowDeadData := false } d = !d :=
    keptB_false_allow _ hfalse
  have hvars := emitVarsDecl_live { opts with allowDeadData := false } hfalse vars
  have harrs := emitArrayDecl_live { opts with allowDeadData := false } hfalse arrays
  refine ⟨hvars.1, hvars.2, harrs.1, harrs.2, ?_, ?_, ?_, ?_, ?_, ?_, ?_⟩
  · rw [emitVarExtDecl_eq]
    apply all_filter_of_imp
    intro v hp
    simp only [hkept, Bool.and_eq_true] at hp
    exact hp.1
  · cases hr : emitArrayExtDecl { opts with allowDeadData := false } oracles
        true arrays with
    | error e => rfl
    | ok r =>
      have := emitArrayExtDecl_ok_eq _ _ _ _ r hr
      simp only [extArrDeclAllLive, this]
      apply all_filter_of_imp
      intro a hp
      simp only [hkept, Bool.and_eq_true] at hp
      exact hp.1
  · rw [emitVarFuncParam_eq]
    apply all_filter_of_imp
    intro v hp
    simp only [hkept, Bool.and_eq_true] at hp
    exact hp.1.1
  · rw [emitVarFuncParamInMain_eq]
    apply all_filter_of_imp
    intro v hp
    simp only [hkept, Bool.and_eq_true] at hp
    exact hp.1.1
  · rw [emitArrayFuncParam_eq]
    apply all_filter_of_imp
    intro a hp
    simp only [hkept, Bool.and_eq_true] at hp
    exact hp.1.1
  · rw [emitArrayInit_eq]
    simp only [List.all_eq_true]
    intro n hn
    rcases List.mem_map.mp hn with ⟨a, ha, rfl⟩
    have hp := List.of_mem_filter ha
    simp only [hkept, Bool.and_eq_true] at hp
    simpa using hp.2
  · apply emitVarMemberInit_all
    rw [List.all_eq_true]
    intro v hv
    have h2 := hvars.2
    rw [List.all_eq_true] at h2
    exact h2 v (by simp [VarBufs.toList, hv])

/-- A concrete dead NORMAL-kind output scalar. -/
def varDeadEx : ScalarVar :=
  { varEx1 with
      name := "var_9", nameWithoutPrefix := "var_9", originName := "var_9",
      isDead := true }

/-- A concrete dead RAW pointer variable. -/
def ptrDeadEx : ScalarVar :=
  { varEx1 with
      name := "ptr_3", nameWithoutPrefix := "ptr_3", originName := "ptr_3",
      varKind := VarKindID.PTR, ptrType := PtrTypeID.RAW, isDead := true }

/-- Claim C7, counterexample: with dead-data retention disabled
(optsEx.allowDeadData = false) the checksum routine still emits a hash call
for a dead output scalar, and the pointer declarations still allocate and
register for delete a dead RAW pointer; neither loop consults the dead
flag. -/
theorem claim_C7_counterexample :
    optsEx.allowDeadData = false
    ∧ emitCheck optsEx [varDeadEx] [] = Except.ok [CheckStmt.hashCall "var_9"]
    ∧ varDeadEx.isDead = true
    ∧ emitPtrDecl [ptrDeadEx] = ([PtrStmt.newStmt ptrDeadEx], [ptrDeadEx])
    ∧ ptrDeadEx.isDead = true := by
  refine ⟨by rfl, by rfl, by rfl, by rfl, by rfl⟩

/-- The scalar-member buffers after two successive emitVarsDecl calls (input
table then output table) on the same process-wide buffers. -/
def appendVarBufs (b1 b2 : VarBufs) : VarBufs :=
  { structMbr := b1.structMbr ++ b2.structMbr
    classMbr := b1.classMbr ++ b2.classMbr
    classPrivMbr := b1.classPrivMbr ++ b2.classPrivMbr
    dynStructMbr := b1.dynStructMbr ++ b2.dynStructMbr
    dynClassMbr := b1.dynClassMbr ++ b2.dynClassMbr }

/-- The array-member buffers after two successive emitArrayDecl calls. -/
def appendArrBufs (b1 b2 : ArrBufs) : ArrBufs :=
  { structMbr := b1.structMbr ++ b2.structMbr
    classMbr := b1.classMbr ++ b2.classMbr
    dynStructMbr := b1.dynStructMbr ++ b2.dynStructMbr
    dynClassMbr := b1.dynClassMbr ++ b2.dynClassMbr }

/-- The option narrowing at the start of ProgramGenerator.emit (program.cpp
1066 to 1071): when a unique alignment size was requested but is still
MAX_ALIGNMENT_SIZE, a concrete size is drawn from align_size_distr. -/
def narrowAlignOptions (opts : Opts) (oracles : Oracles) : Opts :=
  if opts.uniqueAlignSize
      && decide (opts.alignSize = AlignmentSize.MAX_ALIGNMENT_SIZE) then
    { opts with alignSize := oracles.narrowAlign }
  else opts

/-- The structured content of the emitted source artifact, one field per
section modelled above. -/
structure EmitOutput where
  externVars : List ScalarVar
  externArrays : List Array
  passed : List String
  varDecls : List ScalarVar
  varBufs : VarBufs
  ptrStmts : List PtrStmt
  needDelete : List ScalarVar
  arrayDecls : List Array
  arrBufs : ArrBufs
  initNests : List InitNest
  initMembers : List ScalarVar
  checkStmts : List CheckStmt
  testParams : List String
  mainArgs : List String
  releaseNames : List String
deriving DecidableEq, Repr

/-- Whether an Except value is an error. -/
def isErrB {ε α : Type} (e : Except ε α) : Bool :=
  match e with
  | Except.error _ => true
  | Except.ok _ => false

/-- Mapping over the success value does not change error-ness. -/
theorem isErrB_map {ε α β : Type} (f : α → β) (e : Except ε α) :
    isErrB (e.map f) = isErrB e := by
  cases e <;> rfl

/-- ProgramGenerator.emit (program.cpp 1062 to 1095) as one pipeline over the
two symbol tables: narrow the alignment option, run emitExtDecl (its text
goes to a null stream, but its Bad alignment size abort still applies), fail
if the output destination cannot be opened, then render every section in
source order (emitCheckFunc, declarations, init, checksum, test, Release,
main).  The Precompute generation-time hashing side effect is the separately
modelled ProgramGenerator.hash and hashArray (whose array walk is undefined,
see above) and is not threaded here. -/
def ProgramGenerator.emit (opts0 : Opts) (oracles : Oracles)
    (inpVars outVars : List ScalarVar) (inpArrays outArrays : List Array) :
    Except EmitErr EmitOutput :=
  let opts := narrowAlignOptions opts0 oracles
  let rv1 := emitVarExtDecl opts oracles true inpVars
  let rv2 := emitVarExtDecl opts oracles false outVars
  match emitArrayExtDecl opts oracles true inpArrays with
  | Except.error e => Except.error e
  | Except.ok ra1 =>
    match emitArrayExtDecl opts oracles false outArrays with
    | Except.error e => Except.error e
    | Except.ok ra2 =>
      if opts.outFileOpenable = false then Except.error EmitErr.cantOpenFile
      else
        let passed := rv1.2 ++ rv2.2 ++ ra1.2 ++ ra2.2
        let dv1 := emitVarsDecl opts inpVars
        let dv2 := emitVarsDecl opts outVars
        let varBufs := appendVarBufs dv1.2 dv2.2
        let pp1 := emitPtrDecl inpVars
        let pp2 := emitPtrDecl outVars
        let da1 := emitArrayDecl opts inpArrays
        let da2 := emitArrayDecl opts outArrays
        match emitCheck opts outVars outArrays with
        | Except.error e => Except.error e
        | Except.ok checkStmts =>
          Except.ok
            { externVars := rv1.1 ++ rv2.1
              externArrays := ra1.1 ++ ra2.1
              passed := passed
              varDecls := dv1.1 ++ dv2.1
              varBufs := varBufs
              ptrStmts := pp1.1 ++ pp2.1
              needDelete := pp1.2 ++ pp2.2
              arrayDecls := da1.1 ++ da2.1
              arrBufs := appendArrBufs da1.2 da2.2
              initNests := emitArrayInit opts inpArrays
                ++ emitArrayInit opts outArrays
              initMembers := emitVarMemberInit varBufs.structMbr
                ++ emitVarMemberInit varBufs.dynStructMbr
                ++ emitVarMemberInit varBufs.classMbr
                ++ emitVarMemberInit varBufs.dynClassMbr
              checkStmts := checkStmts
              testParams := emitTestParamNames opts passed inpVars inpArrays
              mainArgs := emitMainArgNames opts passed inpVars inpArrays
              releaseNames := emitRelease (pp1.2 ++ pp2.2) }

/-- Whether the scalar loop of emitCheck reaches the algorithm dispatch at
all: it does exactly when the table is non-empty and its first entry is not
a DYN_CLASS_MBR (the loop breaks there before dispatching). -/
def checkVarsReachAlgoB : List ScalarVar → Bool
  | [] => false
  | v :: _ => !(v.varKind = VarKindID.DYN_CLASS_MBR)

/-- emitArrayExtDecl aborts exactly when some live, not-passed array reaches
the unsupported alignment size. -/
theorem emitArrayExtDecl_err_iff (opts : Opts) (oracles : Oracles) (c : Bool)
    (arrays : List Array) :
    isErrB (emitArrayExtDecl opts oracles c arrays) = true
      ↔ arrays.any (fun a =>
          keptB opts a.isDead && !passDecisionArr opts oracles c a
            && alignErrB opts oracles a) = true := by
  induction arrays with
  | nil => simp [emitArrayExtDecl, isErrB]
  | cons a rest ih =>
    by_cases hd : (!opts.allowDeadData && a.isDead) = true
    · have hk : keptB opts a.isDead = false := by simp [keptB, hd]
      simp [emitArrayExtDecl, hd, hk, ih]
    · have hk : keptB opts a.isDead = true := by
        simp only [keptB]; simp only [Bool.not_eq_true] at hd; simp [hd]
      by_cases hp : passDecisionArr opts oracles c a = true
      · simp [emitArrayExtDecl, hd, hp, hk, isErrB_map, ih]
      · simp only [Bool.not_eq_true] at hp
        by_cases he : alignErrB opts oracles a = true
        · simp [emitArrayExtDecl, hd, hp, hk, he, isErrB]
        · simp only [Bool.not_eq_true] at he
          simp [emitArrayExtDecl, hd, hp, hk, he, isErrB_map, ih]

/-- For a supported algorithm the scalar loop of emitCheck never aborts. -/
theorem emitCheckVars_ok_of_supported (opts : Opts)
    (h : ¬opts.checkAlgo = CheckAlgo.UNSUPPORTED) (vars : List ScalarVar) :
    isErrB (emitCheckVars opts vars) = false := by
  induction vars with
  | nil => rfl
  | cons v rest ih =>
    by_cases hk : v.varKind = VarKindID.DYN_CLASS_MBR
    · simp [emitCheckVars, hk, isErrB]
    · cases halgo : opts.checkAlgo
      all_goals
        first
        | exact absurd halgo h
        | (simp only [emitCheckVars, if_neg hk, halgo]
           rw [isErrB_map]
           exact ih)

/-- For a supported algorithm the array loop of emitCheck never aborts. -/
theorem emitCheckArrays_ok_of_supported (opts : Opts)
    (h : ¬opts.checkAlgo = CheckAlgo.UNSUPPORTED) (arrays : List Array) :
    isErrB (emitCheckArrays opts arrays) = false := by
  induction arrays with
  | nil => rfl
  | cons a rest ih =>
    by_cases hk : a.arrKind = ArrKindID.DYN_CLASS_MBR
    · simpa [emitCheckArrays, hk] using ih
    · cases halgo : opts.checkAlgo
      all_goals
        first
        | exact absurd halgo h
        | (simp only [emitCheckArrays, if_neg hk, halgo]
           rw [isErrB_map]
           exact ih)

/-- The scalar loop of emitCheck aborts exactly when the algorithm is
unsupported and the loop reaches the dispatch. -/
theorem emitCheckVars_err_iff (opts : Opts) (vars : List ScalarVar) :
    isErrB (emitCheckVars opts vars) = true
      ↔ (opts.checkAlgo = CheckAlgo.UNSUPPORTED
          ∧ checkVarsReachAlgoB vars = true) := by
  by_cases hu : opts.checkAlgo = CheckAlgo.UNSUPPORTED
  · cases vars with
    | nil => simp [emitCheckVars, isErrB, checkVarsReachAlgoB, hu]
    | cons v rest =>
      by_cases hk : v.varKind = VarKindID.DYN_CLASS_MBR
      · simp [emitCheckVars, hk, isErrB, checkVarsReachAlgoB, hu]
      · simp [emitCheckVars, hk, hu, isErrB, checkVarsReachAlgoB]
  · have hok := emitCheckVars_ok_of_supported opts hu vars
    simp [hok, hu]

/-- The array loop of emitCheck aborts exactly when the algorithm is
unsupported and some array survives the DYN_CLASS_MBR skip. -/
theorem emitCheckArrays_err_iff (opts : Opts) (arrays : List Array) :
    isErrB (emitCheckArrays opts arrays) = true
      ↔ (opts.checkAlgo = CheckAlgo.UNSUPPORTED
          ∧ arrays.any (fun a => !(a.arrKind = ArrKindID.DYN_CLASS_MBR)) = true) := by
  by_cases hu : opts.checkAlgo = CheckAlgo.UNSUPPORTED
  · induction arrays with
    | nil => simp [emitCheckArrays, isErrB]
    | cons a rest ih =>
      by_cases hk : a.arrKind = ArrKindID.DYN_CLASS_MBR
      · simpa [emitCheckArrays, hk] using ih
      · simp [emitCheckArrays, hk, hu, isErrB]
  · have hok := emitCheckArrays_ok_of_supported opts hu arrays
    simp [hok, hu]

/-- emitCheck aborts exactly when the algorithm is unsupported and either
loop reaches the dispatch. -/
theorem emitCheck_err_iff (opts : Opts) (outVars : List ScalarVar)
    (outArrays : List Array) :
    isErrB (emitCheck opts outVars outArrays) = true
      ↔ (opts.checkAlgo = CheckAlgo.UNSUPPORTED
          ∧ (checkVarsReachAlgoB outVars
              || outArrays.any (fun a => !(a.arrKind = ArrKindID.DYN_CLASS_MBR)))
            = true) := by
  cases hv : emitCheckVars opts outVars with
  | error e =>
    have h1 : isErrB (emitCheckVars opts outVars) = true := by simp [hv, isErrB]
    have h2 := (emitCheckVars_err_iff opts outVars).mp h1
    simp [emitCheck, hv, isErrB, h2.1, h2.2]
  | ok vs =>
    have h1 : isErrB (emitCheckVars opts outVars) = false := by simp [hv, isErrB]
    have h2 : ¬(opts.checkAlgo = CheckAlgo.UNSUPPORTED
        ∧ checkVarsReachAlgoB outVars = true) := by
      intro hcon
      rw [(emitCheckVars_err_iff opts outVars).mpr hcon] at h1
      exact absurd h1 (by simp)
    cases ha : emitCheckArrays opts outArrays with
    | error e2 =>
      have h3 : isErrB (emitCheckArrays opts outArrays) = true := by
        simp [ha, isErrB]
      have h4 := (emitCheckArrays_err_iff opts outArrays).mp h3
      simp [emitCheck, hv, ha, isErrB, h4.1, h4.2]
    | ok as_ =>
      have h3 : isErrB (emitCheckArrays opts outArrays) = false := by
        simp [ha, isErrB]
      have h4 : ¬(opts.checkAlgo = CheckAlgo.UNSUPPORTED
          ∧ outArrays.any (fun a => !(a.arrKind = ArrKindID.DYN_CLASS_MBR))
            = true) := by
        intro hcon
        rw [(emitCheckArrays_err_iff opts outArrays).mpr hcon] at h3
        exact absurd h3 (by simp)
      simp only [emitCheck, hv, ha, isErrB]
      constructor
      · intro hcon; exact absurd hcon (by simp)
      · intro hcon
        rcases hcon with ⟨hu, hor⟩
        rcases Bool.or_eq_true _ _ |>.mp hor with h | h
        · exact absurd ⟨hu, h⟩ h2
        · exact absurd ⟨hu, h⟩ h4

/-- A concrete live DYN_CLASS_MBR output scalar. -/
def varDynEx : ScalarVar :=
  { varEx1 with
      name := "var_4", nameWithoutPrefix := "var_4", originName := "var_4",
      varKind := VarKindID.DYN_CLASS_MBR }

/-- Claim C3, counterexample: with the Hash algorithm and the output table
[varDynEx, varEx1], where varEx1 is a live NORMAL scalar, the emitted
checksum routine performs NO mix call at all: the scalar loop BREAKS at the
first DynamicClassMember entry instead of skipping it, so the live output
scalar behind it is omitted (and, dually, the loop applies no dead-data
filter, see the C7 counterexample). -/
theorem claim_C3_counterexample :
    (emitCheck optsEx [varDynEx, varEx1] []).map checkHashTrace = Except.ok []
    ∧ varEx1.isDead = false
    ∧ varEx1.varKind = VarKindID.NORMAL
    ∧ optsEx.checkAlgo = CheckAlgo.HASH := by
  refine ⟨by rfl, by rfl, by rfl, by rfl⟩

/-- Claim C9, corrected form: generation aborts with a diagnostic exactly
when the extern-array rendering reaches an unsupported MAX_ALIGNMENT_SIZE
(for some live, not-passed array of either table), or the output destination
cannot be opened, or the checksum algorithm is unsupported AND the checksum
dispatch is actually reached (some output scalar precedes the first
DynamicClassMember entry, or some output array is not a DynamicClassMember).
In every other case — including a missing or malformed external-function
YAML file, which the loader silently turns into an empty function list
before emission — emission runs to completion. -/
theorem claim_C9 (opts0 : Opts) (oracles : Oracles)
    (inpVars outVars : List ScalarVar) (inpArrays outArrays : List Array) :
    isErrB (ProgramGenerator.emit opts0 oracles inpVars outVars inpArrays
        outArrays) = true
      ↔ (inpArrays.any (fun a =>
            keptB (narrowAlignOptions opts0 oracles) a.isDead
              && !passDecisionArr (narrowAlignOptions opts0 oracles) oracles
                    true a
              && alignErrB (narrowAlignOptions opts0 oracles) oracles a) = true
        ∨ outArrays.any (fun a =>
            keptB (narrowAlignOptions opts0 oracles) a.isDead
              && !passDecisionArr (narrowAlignOptions opts0 oracles) oracles
                    false a
              && alignErrB (narrowAlignOptions opts0 oracles) oracles a) = true
        ∨ (narrowAlignOptions opts0 oracles).outFileOpenable = false
        ∨ ((narrowAlignOptions opts0 oracles).checkAlgo = CheckAlgo.UNSUPPORTED
            ∧ (checkVarsReachAlgoB outVars
                || outArrays.any
                    (fun a => !(a.arrKind = ArrKindID.DYN_CLASS_MBR)))
              = true)) := by
  simp only [ProgramGenerator.emit]
  cases h1 : emitArrayExtDecl (narrowAlignOptions opts0 oracles) oracles true
      inpArrays with
  | error e =>
    have hd := (emitArrayExtDecl_err_iff (narrowAlignOptions opts0 oracles) oracles true inpArrays).mp
      (by simp [h1, isErrB])
    simp [isErrB, hd]
  | ok ra1 =>
    have hno1 : ¬(inpArrays.any (fun a =>
        keptB (narrowAlignOptions opts0 oracles) a.isDead
          && !passDecisionArr (narrowAlignOptions opts0 oracles) oracles true a
          && alignErrB (narrowAlignOptions opts0 oracles) oracles a) = true) := by
      intro hcon
      have hx := (emitArrayExtDecl_err_iff (narrowAlignOptions opts0 oracles) oracles true inpArrays).mpr hcon
      rw [h1] at hx
      exact absurd hx (by simp [isErrB])
    cases h2 : emitArrayExtDecl (narrowAlignOptions opts0 oracles) oracles false
        outArrays with
    | error e =>
      have hd := (emitArrayExtDecl_err_iff (narrowAlignOptions opts0 oracles) oracles false outArrays).mp
        (by simp [h2, isErrB])
      simp [isErrB, hd]
    | ok ra2 =>
      have hno2 : ¬(outArrays.any (fun a =>
          keptB (narrowAlignOptions opts0 oracles) a.isDead
            && !passDecisionArr (narrowAlignOptions opts0 oracles) oracles
                  false a
            && alignErrB (narrowAlignOptions opts0 oracles) oracles a) = true) := by
        intro hcon
        have hx := (emitArrayExtDecl_err_iff (narrowAlignOptions opts0 oracles) oracles false outArrays).mpr hcon
        rw [h2] at hx
        exact absurd hx (by simp [isErrB])
      by_cases hopen : (narrowAlignOptions opts0 oracles).outFileOpenable = false
      · simp [hopen, isErrB, hno1, hno2]
      · cases h3 : emitCheck (narrowAlignOptions opts0 oracles) outVars
            outArrays with
        | error e =>
          have hd := (emitCheck_err_iff (narrowAlignOptions opts0 oracles) outVars outArrays).mp
            (by simp [h3, isErrB])
          simp [hopen, isErrB, hno1, hno2, hd.1, hd.2]
        | ok cs =>
          have hnc : ¬((narrowAlignOptions opts0 oracles).checkAlgo
              = CheckAlgo.UNSUPPORTED
              ∧ (checkVarsReachAlgoB outVars
                  || outArrays.any
                      (fun a => !(a.arrKind = ArrKindID.DYN_CLASS_MBR)))
                = true) := by
            intro hcon
            have hx := (emitCheck_err_iff (narrowAlignOptions opts0 oracles) outVars outArrays).mpr hcon
            rw [h3] at hx
            exact absurd hx (by simp [isErrB])
          simp [hopen, isErrB, hno1, hno2]
          intro hu
          have hx : (checkVarsReachAlgoB outVars
              || outArrays.any (fun a => !(a.arrKind = ArrKindID.DYN_CLASS_MBR)))
              = false := by
            by_contra hcon
            simp only [Bool.not_eq_false] at hcon
            exact hnc ⟨hu, hcon⟩
          simp only [Bool.or_eq_false_iff] at hx
          refine ⟨hx.1, ?_⟩
          intro x hxmem
          have h4 := hx.2
          rw [List.any_eq_false] at h4
          have h5 := h4 x hxmem
          simpa using h5

/-- Options selecting an unsupported checksum algorithm, everything else
benign. -/
def optsC9 : Opts := { optsEx with checkAlgo := CheckAlgo.UNSUPPORTED }

/-- Claim C9, counterexample: with an unsupported checksum algorithm but
EMPTY symbol tables, the checksum loops never reach the algorithm dispatch
and emission runs to completion — no abort happens, contradicting the claim
that an algorithm outside {Asserts, Hash, Precompute} always aborts. -/
theorem claim_C9_counterexample :
    optsC9.checkAlgo = CheckAlgo.UNSUPPORTED
    ∧ optsC9.outFileOpenable = true
    ∧ isErrB (ProgramGenerator.emit optsC9 oraclesEx [] [] [] []) = false := by
  refine ⟨by rfl, by rfl, by rfl⟩

end Yarpgen
